import Mathlib

/-!
Verification of the NAV store, position ledger, settlement calculator,
trading-day classifier and sync orchestrator of the fund-analyzer plugin.

Shallow embedding conventions:
- Python `float` quantities (costs, shares, NAVs) are modelled as `Rat`;
  Unix timestamps as `Nat`.
- An ISO date string "YYYY-MM-DD" is modelled as the natural number
  `y*10000 + m*100 + d`; lexicographic comparison of the zero-padded ISO
  strings coincides with numeric comparison of this encoding, and the
  partition month key `y*100 + m` used by the partition resolver is
  `encoded / 100`.
- SQLite tables are lists of rows; the primary-key uniqueness of a table
  appears as a hypothesis where a proof needs it.
- A Python function that can raise is modelled as `Except String`;
  because each data-handler operation runs inside one transaction that is
  rolled back when the function raises, an `Except.error` result leaves
  the caller's store untouched, which the embedding renders by returning
  no store in the error case.
-/

namespace FundAnalyzer

/-! ## Calendar utilities

`datetime.date` arithmetic (`timedelta(days=n)`, `.weekday()`) on the
encoded dates, via the standard civil-calendar day count. -/

def isLeapYear (y : Nat) : Bool :=
  (y % 4 == 0 && y % 100 != 0) || y % 400 == 0

def daysInMonth (y m : Nat) : Nat :=
  if m = 2 then (if isLeapYear y then 29 else 28)
  else if m = 4 ∨ m = 6 ∨ m = 9 ∨ m = 11 then 30
  else 31

def dateYear (d : Nat) : Nat := d / 10000
def dateMonth (d : Nat) : Nat := d / 100 % 100
def dateDay (d : Nat) : Nat := d % 100

/-- Month key `year*100 + month` of an encoded date, as computed by
`_extract_month_key_from_date_text`. -/
def monthKeyOfDate (d : Nat) : Nat := d / 100

/-- Successor calendar day of an encoded date (`timedelta(days=1)`). -/
def nextDay (d : Nat) : Nat :=
  let y := dateYear d
  let m := dateMonth d
  let dd := dateDay d
  if dd < daysInMonth y m then d + 1
  else if m < 12 then y * 10000 + (m + 1) * 100 + 1
  else (y + 1) * 10000 + 101

/-- `date + timedelta(days=k)` on encoded dates. -/
def addDays (d : Nat) : Nat → Nat
  | 0 => d
  | k + 1 => addDays (nextDay d) k

/-- Day count of a civil date (days since 0000-03-01), Hinnant's algorithm
specialised to years ≥ 1. -/
def rataDie (y m d : Nat) : Nat :=
  let yy := if m ≤ 2 then y - 1 else y
  let era := yy / 400
  let yoe := yy % 400
  let mp := (m + 9) % 12
  let doy := (153 * mp + 2) / 5 + d - 1
  let doe := yoe * 365 + yoe / 4 - yoe / 100 + doy
  era * 146097 + doe

def rataDieOfDate (d : Nat) : Nat :=
  rataDie (dateYear d) (dateMonth d) (dateDay d)

/-- Python `date.weekday()` (Monday = 0) of an encoded date. -/
def weekdayOfDate (d : Nat) : Nat := (rataDieOfDate d + 2) % 7

/-- `NavSyncService._is_weekday`: Monday-Friday counts as a workday. -/
def isWeekdayDate (d : Nat) : Bool := weekdayOfDate d < 5

/-- `(today - latest).days` on encoded dates. -/
def dateDiffDays (today latest : Nat) : Int :=
  (rataDieOfDate today : Int) - (rataDieOfDate latest : Int)

/-! ## String utilities from `DataHandler` / `NavSyncService` -/

def isSpaceChar (c : Char) : Bool :=
  c == ' ' || c == '\t' || c == '\n' || c == '\r' || c == '\x0b' || c == '\x0c'

/-- Python `str.strip()`. -/
def pyStrip (s : String) : String :=
  String.mk (((s.toList.dropWhile isSpaceChar).reverse.dropWhile isSpaceChar).reverse)

/-- Python `str.isdigit()` (ASCII digits; nonempty). -/
def isDigits (s : String) : Bool :=
  s.length != 0 && s.toList.all Char.isDigit

/-- Python `str.zfill(6)`. -/
def zfill6 (s : String) : String :=
  if s.length ≥ 6 then s else String.mk (List.replicate (6 - s.length) '0') ++ s

/-- `DataHandler._normalize_fund_code`: strip, and zero-pad pure-digit codes
to six characters. -/
def normalizeFundCode (fundCode : String) : String :=
  let code := pyStrip fundCode
  if isDigits code then zfill6 code else code

/-- Python `str.lower()` (ASCII case folding). -/
def pyLower (s : String) : String := String.mk (s.toList.map Char.toLower)

/-- `DataHandler._normalize_key`: strip with a fallback for empty input. -/
def normalizeKey (value : String) (fallback : String) : String :=
  let text := pyStrip value
  if text = "" then fallback else text

/-! ## Data model

Rows of `funds`, the monthly NAV partitions plus the legacy
`fund_nav_history` table, `user_fund_positions` and
`user_fund_position_logs`, gathered into one store `DB`. -/

structure Fund where
  id : Nat
  fundCode : String
  fundName : String
  createdAt : Nat
  updatedAt : Nat
deriving Repr, DecidableEq

structure NavRow where
  fundId : Nat
  navDate : Nat
  unitNav : Rat
  accumNav : Option Rat
  changeRate : Option Rat
  source : String
  createdAt : Nat
  updatedAt : Nat
deriving Repr, DecidableEq

structure Position where
  platform : String
  userId : String
  fundId : Nat
  avgCost : Rat
  shares : Rat
  createdAt : Nat
  updatedAt : Nat
deriving Repr, DecidableEq

structure PosLog where
  id : Nat
  platform : String
  userId : String
  fundId : Nat
  action : String
  sharesDelta : Rat
  sharesBefore : Rat
  sharesAfter : Rat
  avgCost : Rat
  settlementNav : Option Rat
  settlementNavDate : Option Nat
  expectedSettlementDate : Option Nat
  settlementRule : String
  profitAmount : Option Rat
  note : String
  createdAt : Nat
deriving Repr, DecidableEq

/-- The whole SQLite database: `funds` with its AUTOINCREMENT counter, the
monthly NAV partitions as `(monthKey, rows)` pairs, the legacy NAV table,
positions, and position logs with their AUTOINCREMENT counter. -/
structure DB where
  funds : List Fund
  nextFundId : Nat
  partitions : List (Nat × List NavRow)
  legacy : List NavRow
  positions : List Position
  logs : List PosLog
  nextLogId : Nat
deriving Repr, DecidableEq

/-! ## Fund registry -/

def findFundByCode (funds : List Fund) (code : String) : Option Fund :=
  funds.find? (fun f => f.fundCode == code)

def fundIdForCode (db : DB) (code : String) : Option Nat :=
  (findFundByCode db.funds code).map (fun f => f.id)

/-- `DataHandler._ensure_fund_tx`: upsert by `fund_code`; on conflict the
name is overwritten only when the incoming name is nonempty, `updated_at`
is refreshed; a fresh fund gets the next id.  Returns the store and the
fund id. -/
def ensureFund (db : DB) (code fundName : String) (now : Nat) : DB × Nat :=
  match findFundByCode db.funds code with
  | some f =>
      let updated : Fund :=
        { f with
          fundName := if fundName ≠ "" then fundName else f.fundName,
          updatedAt := now }
      ({ db with
          funds := db.funds.map (fun g => if g.fundCode == code then
            { g with
              fundName := if fundName ≠ "" then fundName else g.fundName,
              updatedAt := now } else g) },
       updated.id)
  | none =>
      let f : Fund := ⟨db.nextFundId, code, fundName, now, now⟩
      ({ db with funds := db.funds ++ [f], nextFundId := db.nextFundId + 1 },
       f.id)

/-! ## Partition resolver -/

/-- Rows of the partition with month key `k` (empty when the partition
table does not exist yet). -/
def getPartition (db : DB) (k : Nat) : List NavRow :=
  match db.partitions.find? (fun p => p.1 == k) with
  | some p => p.2
  | none => []

def hasPartition (db : DB) (k : Nat) : Bool :=
  db.partitions.any (fun p => p.1 == k)

/-- `_ensure_nav_partition_table_tx`: CREATE TABLE IF NOT EXISTS. -/
def ensurePartition (db : DB) (k : Nat) : DB :=
  if hasPartition db k then db
  else { db with partitions := db.partitions ++ [(k, [])] }

def setPartition (db : DB) (k : Nat) (tbl : List NavRow) : DB :=
  { db with partitions := db.partitions.map (fun p => if p.1 == k then (k, tbl) else p) }

/-- `_resolve_nav_tables_tx` with `include_legacy=True`: the partitions
whose month key lies in the requested month range, sorted descending
(or ascending) by month key, followed by the legacy table.  Returns the
tables' rows in resolved order. -/
def resolveNavTables (db : DB) (startD endD : Option Nat) (orderDesc : Bool) :
    List (List NavRow) :=
  let keys := db.partitions.map (fun p => p.1)
  let keys := match startD with
    | some s => keys.filter (fun k => monthKeyOfDate s ≤ k)
    | none => keys
  let keys := match endD with
    | some e => keys.filter (fun k => k ≤ monthKeyOfDate e)
    | none => keys
  let sorted := if orderDesc then keys.insertionSort (fun a b => a ≥ b)
    else keys.insertionSort (fun a b => a ≤ b)
  sorted.map (getPartition db) ++ [db.legacy]

/-! ## NAV store -/

/-- One NAV record as prepared by `upsert_fund_nav_history` (after date
normalisation and numeric parsing). -/
structure NavInput where
  navDate : Nat
  unitNav : Rat
  accumNav : Option Rat
  changeRate : Option Rat
deriving Repr, DecidableEq

def navKeyMatch (fid : Nat) (d : Nat) (r : NavRow) : Bool :=
  r.fundId == fid && r.navDate == d

def findNavRow (tbl : List NavRow) (fid d : Nat) : Option NavRow :=
  tbl.find? (navKeyMatch fid d)

def countNavKey (tbl : List NavRow) (fid d : Nat) : Nat :=
  (tbl.filter (navKeyMatch fid d)).length

/-- One `INSERT ... ON CONFLICT(fund_id, nav_date) DO UPDATE` statement:
insert when the key is absent, otherwise overwrite `unit_nav`, `accum_nav`,
`change_rate` and `updated_at` unconditionally and `source` only when the
incoming source is nonempty. -/
def upsertRowInTable (tbl : List NavRow) (fid : Nat) (inp : NavInput)
    (src : String) (now : Nat) : List NavRow :=
  if tbl.any (navKeyMatch fid inp.navDate) then
    tbl.map (fun r => if navKeyMatch fid inp.navDate r then
      { r with
        unitNav := inp.unitNav,
        accumNav := inp.accumNav,
        changeRate := inp.changeRate,
        source := if src ≠ "" then src else r.source,
        updatedAt := now }
      else r)
  else
    tbl ++ [⟨fid, inp.navDate, inp.unitNav, inp.accumNav, inp.changeRate, src, now, now⟩]

/-- Append a record to its month-key group, preserving first-appearance
order of groups and record order within a group (the insertion-ordered
`prepared` dict). -/
def insertGroup (gs : List (Nat × List NavInput)) (k : Nat) (r : NavInput) :
    List (Nat × List NavInput) :=
  match gs with
  | [] => [(k, [r])]
  | (k', rs) :: rest =>
      if k' = k then (k', rs ++ [r]) :: rest
      else (k', rs) :: insertGroup rest k r

def groupByMonth (records : List NavInput) : List (Nat × List NavInput) :=
  records.foldl (fun gs r => insertGroup gs (monthKeyOfDate r.navDate) r) []

/-- `DataHandler.upsert_fund_nav_history`.  Validation of every record
(`unit_nav` positive) happens in the prepare loop before any write, so an
invalid record fails the whole batch with no change; on success the fund is
ensured, each target partition is created on demand, and every record is
upserted.  The returned count is incremented once per prepared record. -/
def upsertFundNavHistory (db : DB) (fundCode : String)
    (records : List NavInput) (fundName source : String) (now : Nat) :
    Except String (DB × Nat) :=
  let code := normalizeFundCode fundCode
  if code = "" then .error "基金代码不能为空"
  else if records = [] then .ok (db, 0)
  else if records.any (fun r => r.unitNav ≤ 0) then .error "单位净值 必须大于 0"
  else
    let sourceText := pyStrip source
    let ensured := ensureFund db code (pyStrip fundName) now
    let db2 := (groupByMonth records).foldl
      (fun acc kg =>
        let acc1 := ensurePartition acc kg.1
        kg.2.foldl
          (fun acc2 inp =>
            setPartition acc2 kg.1
              (upsertRowInTable (getPartition acc2 kg.1) ensured.2 inp sourceText now))
          acc1)
      ensured.1
    .ok (db2, records.length)

/-- One per-table query of `list_fund_nav_history`:
`WHERE fund_code = ? [AND nav_date >= ?] [AND nav_date <= ?]
ORDER BY nav_date DESC LIMIT ?`. -/
def queryNavTableDesc (tbl : List NavRow) (fid : Nat) (startD endD : Option Nat)
    (lim : Nat) : List NavRow :=
  let rows := tbl.filter (fun r =>
    r.fundId == fid
    && (match startD with | some s => s ≤ r.navDate | none => true)
    && (match endD with | some e => r.navDate ≤ e | none => true))
  (rows.insertionSort (fun a b => a.navDate ≥ b.navDate)).take lim

/-- Cross-partition merge: keep the first-seen row per `nav_date`. -/
def dedupByDate (rows : List NavRow) (seen : List Nat) : List NavRow :=
  match rows with
  | [] => []
  | r :: rest =>
      if seen.contains r.navDate then dedupByDate rest seen
      else r :: dedupByDate rest (r.navDate :: seen)

/-- Final re-sort key of `list_fund_nav_history`:
`(nav_date, updated_at)` descending. -/
def navSortGe (a b : NavRow) : Prop :=
  b.navDate < a.navDate ∨ (b.navDate = a.navDate ∧ b.updatedAt ≤ a.updatedAt)

instance : DecidableRel navSortGe := fun a b => by
  unfold navSortGe; infer_instance

/-- `int(limit or 120)` clamped to `[1, 2000]`. -/
def clampNavLimit (lim : Int) : Nat :=
  (max 1 (min (if lim = 0 then 120 else lim) 2000)).toNat

/-- `DataHandler.list_fund_nav_history`: query every resolved table in
descending order (legacy last), keep the first-seen row per date, then
re-sort by `(nav_date desc, updated_at desc)` and truncate. -/
def listFundNavHistory (db : DB) (fundCode : String)
    (startD endD : Option Nat) (lim : Int) : List NavRow :=
  let code := normalizeFundCode fundCode
  if code = "" then []
  else
    match fundIdForCode db code with
    | none => []
    | some fid =>
        let qlim := clampNavLimit lim
        let tables := resolveNavTables db startD endD true
        let merged := dedupByDate
          (tables.foldr (fun tbl acc => queryNavTableDesc tbl fid startD endD qlim ++ acc) [])
          []
        (merged.insertionSort navSortGe).take qlim

/-- Minimum-date row of a filtered table
(`ORDER BY nav_date ASC LIMIT 1`). -/
def minDateRow (rows : List NavRow) : Option NavRow :=
  rows.foldl
    (fun best r =>
      match best with
      | none => some r
      | some b => if r.navDate < b.navDate then some r else best)
    none

/-- `DataHandler.get_nav_on_or_after`: scan resolved tables in ascending
month order (legacy last) and keep the earliest date at or after the start
(bounded above when an end date is given). -/
def getNavOnOrAfter (db : DB) (fundCode : String) (startD : Nat)
    (endD : Option Nat) : Option NavRow :=
  let code := normalizeFundCode fundCode
  if code = "" then none
  else
    match fundIdForCode db code with
    | none => none
    | some fid =>
        let tables := resolveNavTables db (some startD) endD false
        tables.foldl
          (fun best tbl =>
            let row := minDateRow (tbl.filter (fun r =>
              r.fundId == fid && startD ≤ r.navDate
              && (match endD with | some e => r.navDate ≤ e | none => true)))
            match row, best with
            | none, _ => best
            | some r, none => some r
            | some r, some b => if r.navDate < b.navDate then some r else best)
          none

/-- `DataHandler.get_latest_nav_record`: head of the unbounded history
query with limit 1. -/
def getLatestNavRecord (db : DB) (fundCode : String) : Option NavRow :=
  (listFundNavHistory db fundCode none none 1).head?

/-! ## Position ledger -/

/-- Floating-point tolerance `1e-8` used by the reduction paths. -/
def eps : Rat := 1 / 100000000

def posKeyMatch (pf u : String) (fid : Nat) (p : Position) : Bool :=
  p.platform == pf && p.userId == u && p.fundId == fid

/-- `_get_position_tx`. -/
def findPosition (ps : List Position) (pf u : String) (fid : Nat) : Option Position :=
  ps.find? (posKeyMatch pf u fid)

/-- `_get_position_by_code_tx` (join of positions with `funds` on
`fund_code`, unique by schema). -/
def findPositionByCode (db : DB) (pf u code : String) : Option Position :=
  match fundIdForCode db code with
  | none => none
  | some fid => findPosition db.positions pf u fid

/-- `DataHandler._upsert_position_tx`: insert a fresh position, or merge
into the existing one with the weighted-average rule, rejecting a merge
whose resulting shares are not positive before any write. -/
def upsertPositionTx (db : DB) (pf u : String) (fid : Nat)
    (avgCost shares : Rat) (now : Nat) : Except String (DB × Position) :=
  match findPosition db.positions pf u fid with
  | none =>
      let p : Position := ⟨pf, u, fid, avgCost, shares, now, now⟩
      .ok ({ db with positions := db.positions ++ [p] }, p)
  | some ex =>
      let mergedShares := ex.shares + shares
      if mergedShares ≤ 0 then .error "合并后的持有份额必须大于 0"
      else
        let mergedAvgCost := (ex.avgCost * ex.shares + avgCost * shares) / mergedShares
        let p := { ex with avgCost := mergedAvgCost, shares := mergedShares, updatedAt := now }
        .ok ({ db with positions := db.positions.map (fun q =>
                if posKeyMatch pf u fid q then
                  { q with avgCost := mergedAvgCost, shares := mergedShares, updatedAt := now }
                else q) },
             p)

/-- `DataHandler.add_or_merge_position`.  Numeric-format error messages are
kept without the interpolated field values. -/
def addOrMergePosition (db : DB) (platform userId fundCode : String)
    (avgCost shares : Rat) (fundName : String) (now : Nat) :
    Except String (DB × Position) :=
  let platformKey := normalizeKey platform "unknown"
  let userKey := normalizeKey userId ""
  if userKey = "" then .error "用户 ID 不能为空"
  else
    let code := normalizeFundCode fundCode
    if code = "" then .error "基金代码不能为空"
    else if avgCost ≤ 0 then .error "平均成本 必须大于 0"
    else if shares ≤ 0 then .error "持有份额 必须大于 0"
    else
      let ensured := ensureFund db code (pyStrip fundName) now
      upsertPositionTx ensured.1 platformKey userKey ensured.2 avgCost shares now

/-- Result dictionary of `reduce_position` (fund code/name fields of the
joined row omitted from the record but recoverable from the store). -/
structure ReduceResult where
  platform : String
  userId : String
  fundId : Nat
  avgCost : Rat
  sharesBefore : Rat
  sharesSold : Rat
  sharesAfter : Rat
  positionDeleted : Bool
deriving Repr, DecidableEq

/-- `DataHandler.reduce_position`: validate the sell amount against the
held shares with the `1e-8` tolerance, then either delete the row (when
the remainder is within tolerance, reported as exactly 0) or update the
row's shares in place. -/
def reducePosition (db : DB) (platform userId fundCode : String)
    (shares : Rat) (now : Nat) : Except String (DB × ReduceResult) :=
  let platformKey := normalizeKey platform "unknown"
  let userKey := normalizeKey userId ""
  if userKey = "" then .error "用户 ID 不能为空"
  else
    let code := normalizeFundCode fundCode
    if code = "" then .error "基金代码不能为空"
    else if shares ≤ 0 then .error "卖出份额 必须大于 0"
    else
      match findPositionByCode db platformKey userKey code with
      | none => .error ("未找到基金 " ++ code ++ " 的持仓记录")
      | some row =>
          if row.shares + eps < shares then
            .error "卖出份额不能超过当前持有份额"
          else
            let remaining := row.shares - shares
            if remaining ≤ eps then
              .ok ({ db with positions :=
                      db.positions.filter (fun q => !(posKeyMatch platformKey userKey row.fundId q)) },
                   ⟨platformKey, userKey, row.fundId, row.avgCost, row.shares, shares, 0, true⟩)
            else
              .ok ({ db with positions := db.positions.map (fun q =>
                      if posKeyMatch platformKey userKey row.fundId q then
                        { q with shares := remaining, updatedAt := now }
                      else q) },
                   ⟨platformKey, userKey, row.fundId, row.avgCost, row.shares, shares, remaining, false⟩)

/-- Result dictionary of `reduce_position_with_log`. -/
structure ReduceLogResult where
  base : ReduceResult
  action : String
  logId : Nat
deriving Repr, DecidableEq

/-- `DataHandler.reduce_position_with_log`: the same reduction as
`reduce_position` plus a nonempty-action validation, an optional fund-name
refresh, and one appended audit-log row. -/
def reducePositionWithLog (db : DB) (platform userId fundCode : String)
    (shares : Rat) (action : String)
    (settlementNav : Option Rat) (settlementNavDate : Option Nat)
    (expectedSettlementDate : Option Nat) (settlementRule : String)
    (profitAmount : Option Rat) (note : String) (fundName : String)
    (now : Nat) : Except String (DB × ReduceLogResult) :=
  let platformKey := normalizeKey platform "unknown"
  let userKey := normalizeKey userId ""
  let actionText := pyLower (pyStrip action)
  if userKey = "" then .error "用户 ID 不能为空"
  else
    let code := normalizeFundCode fundCode
    if code = "" then .error "基金代码不能为空"
    else if actionText = "" then .error "操作类型不能为空"
    else if shares ≤ 0 then .error "卖出份额 必须大于 0"
    else
      match findPositionByCode db platformKey userKey code with
      | none => .error ("未找到基金 " ++ code ++ " 的持仓记录")
      | some row =>
          let fundNameText := pyStrip fundName
          let db0 := if fundNameText ≠ "" then (ensureFund db code fundNameText now).1 else db
          if row.shares + eps < shares then
            .error "卖出份额不能超过当前持有份额"
          else
            let remaining := row.shares - shares
            let deleted := decide (remaining ≤ eps)
            let sharesAfter := if remaining ≤ eps then 0 else remaining
            let db1 :=
              if remaining ≤ eps then
                { db0 with positions :=
                    db0.positions.filter (fun q => !(posKeyMatch platformKey userKey row.fundId q)) }
              else
                { db0 with positions := db0.positions.map (fun q =>
                    if posKeyMatch platformKey userKey row.fundId q then
                      { q with shares := remaining, updatedAt := now }
                    else q) }
            let logRow : PosLog :=
              ⟨db1.nextLogId, platformKey, userKey, row.fundId, actionText,
               -shares, row.shares, sharesAfter, row.avgCost,
               settlementNav, settlementNavDate, expectedSettlementDate,
               pyStrip settlementRule, profitAmount, pyStrip note, now⟩
            .ok ({ db1 with logs := db1.logs ++ [logRow], nextLogId := db1.nextLogId + 1 },
                 ⟨⟨platformKey, userKey, row.fundId, row.avgCost, row.shares, shares,
                   sharesAfter, deleted⟩, actionText, logRow.id⟩)

/-! ## Settlement calculator (`main.py`) -/

/-- `_calc_expected_settlement_date`: trade time is the encoded trade date
plus the minute of day; the 15:00 cutoff selects a calendar-day offset
(+1/+2 ordinary, +2/+3 QDII), with no weekend or holiday adjustment. -/
def calcExpectedSettlementDate (tradeDate minuteOfDay : Nat) (isQdii : Bool) :
    Nat × String :=
  let beforeCutoff := minuteOfDay < 15 * 60
  if isQdii then
    (addDays tradeDate (if beforeCutoff then 2 else 3),
     "QDII 基金：15点前按 T+2，15点后按 T+3；若净值未更新则顺延到可用净值日")
  else
    (addDays tradeDate (if beforeCutoff then 1 else 2),
     "非 QDII 基金：15点前按 T+1，15点后按 T+2；按结算日可用最新净值计算")

/-- `_resolve_settlement_nav`: exact date, then QDII one-day deferral, then
earliest on-or-after (noting the actual date when it differs), then the
latest record on file, then nothing. -/
def resolveSettlementNav (db : DB) (fundCode : String) (expectedDate : Nat)
    (isQdii : Bool) : Option NavRow × String :=
  match getNavOnOrAfter db fundCode expectedDate (some expectedDate) with
  | some nav => (some nav, "")
  | none =>
      let qdiiHit : Option NavRow :=
        if isQdii then
          getNavOnOrAfter db fundCode (nextDay expectedDate) (some (nextDay expectedDate))
        else none
      match qdiiHit with
      | some nav => (some nav, "QDII 结算日顺延 1 天后匹配到净值")
      | none =>
          match getNavOnOrAfter db fundCode expectedDate none with
          | some nav =>
              if nav.navDate ≠ expectedDate then
                (some nav, "按结算日后首个可用净值 " ++ toString nav.navDate ++ " 计算")
              else (some nav, "")
          | none =>
              match getLatestNavRecord db fundCode with
              | some latest =>
                  (some latest, "未命中结算日净值，使用最新可用净值 " ++ toString latest.navDate)
              | none => (none, "未获取到历史净值，收益按成本价估算")

/-! ## Sync orchestrator (`NavSyncService._sync_funds_nav`)

The data handler and the external history fetch are the collaborators the
service receives by injection; they appear here as oracle functions in
`SyncEnv`.  A raised exception is a distinguished outcome; Python `None`
and `[]` histories are `value none` and `value (some [])`. -/

structure SyncStats where
  fundsTotal : Nat
  fundsSynced : Nat
  fundsNoNewData : Nat
  fundsFailed : Nat
  navRowsUpserted : Nat
  invalidRowsSkipped : Nat
  errors : List String
deriving Repr, DecidableEq

/-- `_append_error`: record at most 20 error messages. -/
def appendStatsError (stats : SyncStats) (message : String) : SyncStats :=
  if stats.errors.length < 20 then { stats with errors := stats.errors ++ [message] }
  else stats

/-- One daily bar returned by the history fetch, after the service's
per-field parsing: `none` marks a missing/invalid date or a non-numeric
close. -/
structure HistItem where
  date : Option Nat
  close : Option Rat
  changeRate : Option Rat
deriving Repr, DecidableEq

inductive FetchOutcome where
  | exn (message : String)
  | value (history : Option (List HistItem))
deriving Repr, DecidableEq

structure SyncConfig where
  defaultFetchDays : Nat
  maxFetchDays : Nat
  fetchBufferDays : Nat
deriving Repr, DecidableEq

structure SyncEnv where
  today : Nat
  latestNavDate : String → Option Nat
  fetchHistory : String → Nat → FetchOutcome
  upsertNav : String → String → List NavInput → String → Except String Nat

/-- `NavSyncService._normalize_fund_code_text` (same rule as the data
handler's code normalisation). -/
def normalizeFundCodeText (value : String) : String := normalizeFundCode value

/-- `_calc_nav_fetch_days`: a large default window on a forced or first
sync, otherwise enough days to cover the gap since the stored latest date
plus a buffer, capped by the maximum window. -/
def calcNavFetchDays (cfg : SyncConfig) (latestNavDate : Option Nat)
    (forceFull : Bool) (today : Nat) : Nat :=
  match latestNavDate, forceFull with
  | none, _ => cfg.defaultFetchDays
  | some _, true => cfg.defaultFetchDays
  | some latest, false =>
      let delta := dateDiffDays today latest
      if delta < 0 then cfg.defaultFetchDays
      else
        max cfg.fetchBufferDays
          (min (delta.toNat + cfg.fetchBufferDays) cfg.maxFetchDays)

def updateNavAssoc (m : List (Nat × NavInput)) (k : Nat) (v : NavInput) :
    List (Nat × NavInput) :=
  match m with
  | [] => [(k, v)]
  | (k', v') :: rest =>
      if k' = k then (k', v) :: rest else (k', v') :: updateNavAssoc rest k v

def navAssocLookup (m : List (Nat × NavInput)) (k : Nat) : Option NavInput :=
  (m.find? (fun p => p.1 == k)).map (fun p => p.2)

/-- `_build_nav_records_from_history`: drop invalid dates and non-positive
or non-numeric NAVs (counting them and recording capped error messages),
drop records at or before the stored latest date, deduplicate by date with
last-write-wins, and emit the survivors in ascending date order. -/
def buildNavRecordsFromHistory (history : List HistItem)
    (latestNavDate : Option Nat) (fundCode : String) (stats : SyncStats) :
    List NavInput × SyncStats :=
  let step := fun (acc : List (Nat × NavInput) × SyncStats) (item : HistItem) =>
    match item.date with
    | none =>
        (acc.1,
         appendStatsError
           { acc.2 with invalidRowsSkipped := acc.2.invalidRowsSkipped + 1 }
           (fundCode ++ " 跳过无效日期记录"))
    | some navDate =>
        if latestNavDate.any (fun latest => decide (navDate ≤ latest)) then acc
        else
          match item.close with
          | none =>
              (acc.1,
               appendStatsError
                 { acc.2 with invalidRowsSkipped := acc.2.invalidRowsSkipped + 1 }
                 (fundCode ++ " 跳过无效净值记录"))
          | some unitNav =>
              if unitNav ≤ 0 then
                (acc.1,
                 appendStatsError
                   { acc.2 with invalidRowsSkipped := acc.2.invalidRowsSkipped + 1 }
                   (fundCode ++ " 跳过非正净值记录"))
              else
                (updateNavAssoc acc.1 navDate ⟨navDate, unitNav, none, item.changeRate⟩,
                 acc.2)
  let (navMap, stats1) := history.foldl step ([], stats)
  (((navMap.map (fun p => p.1)).insertionSort (fun a b => a ≤ b)).filterMap
     (navAssocLookup navMap),
   stats1)

structure FundRef where
  fundCode : String
  fundName : String
deriving Repr, DecidableEq

/-- The per-fund body of the loop in `_sync_funds_nav`, as a step on the
aggregate statistics. -/
def syncOneFund (env : SyncEnv) (cfg : SyncConfig) (forceFull : Bool)
    (trigger : String) (stats : SyncStats) (fund : FundRef) : SyncStats :=
  let fundCode := normalizeFundCodeText fund.fundCode
  let fundName := pyStrip fund.fundName
  if fundCode = "" || !(isDigits fundCode) || fundCode.length ≠ 6 then
    appendStatsError { stats with fundsFailed := stats.fundsFailed + 1 }
      ((if fundCode = "" then "unknown" else fundCode) ++ " 基金代码无效")
  else
    let latestNavDate := if forceFull then none else env.latestNavDate fundCode
    let fetchDays := calcNavFetchDays cfg latestNavDate forceFull env.today
    match env.fetchHistory fundCode fetchDays with
    | .exn message =>
        appendStatsError { stats with fundsFailed := stats.fundsFailed + 1 }
          (fundCode ++ " " ++ message)
    | .value history =>
        if history.getD [] = [] then
          appendStatsError { stats with fundsFailed := stats.fundsFailed + 1 }
            (fundCode ++ " 无历史数据")
        else
          let (navRecords, stats1) := buildNavRecordsFromHistory (history.getD [])
            (if forceFull then none else latestNavDate) fundCode stats
          if navRecords = [] then
            { stats1 with fundsNoNewData := stats1.fundsNoNewData + 1 }
          else
            match env.upsertNav fundCode fundName navRecords (trigger ++ ":eastmoney") with
            | .error message =>
                appendStatsError { stats1 with fundsFailed := stats1.fundsFailed + 1 }
                  (fundCode ++ " " ++ message)
            | .ok upserted =>
                { stats1 with
                  fundsSynced := stats1.fundsSynced + 1,
                  navRowsUpserted := stats1.navRowsUpserted + upserted }

/-- `_sync_funds_nav` without its lock (the lock is modelled separately by
`SchedStep`): fold the per-fund step over the fund list starting from the
zeroed statistics. -/
def syncFundsNav (env : SyncEnv) (cfg : SyncConfig) (funds : List FundRef)
    (forceFull : Bool) (trigger : String) : SyncStats :=
  funds.foldl (syncOneFund env cfg forceFull trigger)
    ⟨funds.length, 0, 0, 0, 0, 0, []⟩

/-! ## Trading-day classifier (`NavSyncService._is_workday`)

The external classification call is an oracle from the attempt number to
its response (`none` models a raised exception).  The outcome records the
returned value, the number of external calls made, the sleeps performed
between attempts, and the updated per-date cache. -/

/-- A holiday-API `status` outside {0,1,2,3} makes
`_fetch_holiday_status` raise. -/
def holidayStatusValid (s : Int) : Bool :=
  s == 0 || s == 1 || s == 2 || s == 3

/-- `status in (0, 2)` means workday. -/
def holidayStatusIsWorkday (s : Int) : Bool := s == 0 || s == 2

/-- The retry loop of `_is_workday` for attempts
`attempt, attempt+1, ...` with `remaining` attempts left: returns the
service's answer when some attempt succeeds (`none` on exhaustion), the
number of calls made, and the seconds slept between attempts
(`asyncio.sleep(attempt)` after each failed non-final attempt). -/
def runHolidayAttempts (oracle : Nat → Option Int) (attempt remaining : Nat) :
    Option Bool × Nat × List Nat :=
  match remaining with
  | 0 => (none, 0, [])
  | r + 1 =>
      let failed :=
        if r = 0 then ((none : Option Bool), 1, ([] : List Nat))
        else
          let rest := runHolidayAttempts oracle (attempt + 1) r
          (rest.1, rest.2.1 + 1, attempt :: rest.2.2)
      match oracle attempt with
      | some s =>
          if holidayStatusValid s then (some (holidayStatusIsWorkday s), 1, [])
          else failed
      | none => failed

structure WorkdayOutcome where
  result : Bool
  calls : Nat
  sleeps : List Nat
  cache : List (Nat × Bool)
deriving Repr, DecidableEq

def cacheLookup (cache : List (Nat × Bool)) (d : Nat) : Option Bool :=
  (cache.find? (fun p => p.1 == d)).map (fun p => p.2)

/-- `_is_workday`: serve a cached answer without any external call;
otherwise run the bounded retry loop, fall back to the pure weekday
heuristic on exhaustion, and cache whichever result was produced. -/
def isWorkday (cache : List (Nat × Bool)) (oracle : Nat → Option Int)
    (maxRetries : Nat) (d : Nat) : WorkdayOutcome :=
  match cacheLookup cache d with
  | some b => ⟨b, 0, [], cache⟩
  | none =>
      let out := runHolidayAttempts oracle 1 maxRetries
      let value := match out.1 with
        | some b => b
        | none => isWeekdayDate d
      ⟨value, out.2.1, out.2.2, (d, value) :: cache⟩

/-! ## Scheduler single-flight lock

Every sync pass — the intraday tick, the non-workday catch-up and a manual
request — executes `_sync_funds_nav`, whose whole per-fund loop runs inside
`async with self._sync_lock`.  The interleaving of passes is modelled as a
transition system: a task requests a pass, acquires the one lock only when
it is free, runs its per-fund work while holding it, and releases it. -/

inductive TaskPhase where
  | idle
  | waiting
  | running
  | finished
deriving Repr, DecidableEq

inductive PassTrigger where
  | intraday
  | nonWorkday
  | manual
deriving Repr, DecidableEq

structure SchedState (ι : Type) where
  lockHeld : Bool
  phase : ι → TaskPhase
  trigger : ι → PassTrigger

inductive SchedStep {ι : Type} [DecidableEq ι] :
    SchedState ι → SchedState ι → Prop where
  | request (s : SchedState ι) (i : ι) :
      s.phase i = .idle →
      SchedStep s ⟨s.lockHeld, Function.update s.phase i .waiting, s.trigger⟩
  | acquire (s : SchedState ι) (i : ι) :
      s.phase i = .waiting → s.lockHeld = false →
      SchedStep s ⟨true, Function.update s.phase i .running, s.trigger⟩
  | release (s : SchedState ι) (i : ι) :
      s.phase i = .running →
      SchedStep s ⟨false, Function.update s.phase i .finished, s.trigger⟩

def schedInit {ι : Type} (trig : ι → PassTrigger) : SchedState ι :=
  ⟨false, fun _ => .idle, trig⟩

def SchedReachable {ι : Type} [DecidableEq ι] (trig : ι → PassTrigger)
    (s : SchedState ι) : Prop :=
  Relation.ReflTransGen SchedStep (schedInit trig) s

/-- The lock discipline invariant: at most one task is inside the critical
section, and none is when the lock is free. -/
def LockInv {ι : Type} (s : SchedState ι) : Prop :=
  (∀ i j, s.phase i = .running → s.phase j = .running → i = j) ∧
  (s.lockHeld = false → ∀ i, s.phase i ≠ .running)

/-! ## Concrete fixtures for witnesses and counterexamples -/

def c8OracleFail : Nat → Option Int := fun _ => none

def c1Cfg : SyncConfig := ⟨120, 365, 5⟩

/-- An environment whose history fetch always returns an empty list. -/
def c1Env : SyncEnv :=
  ⟨20251011, fun _ => none, fun _ _ => .value (some []), fun _ _ _ _ => .ok 0⟩

def c1Funds : List FundRef := [⟨"000001", "测试基金"⟩]

def c2Fund : Fund := ⟨1, "000001", "", 0, 0⟩

/-- Partition row for 2024-01-15 with the SMALLER `updated_at`. -/
def c2RowPartition : NavRow := ⟨1, 20240115, 1, none, none, "partition", 0, 50⟩

/-- Legacy row for the same date with the GREATER `updated_at`. -/
def c2RowLegacy : NavRow := ⟨1, 20240115, 2, none, none, "legacy", 0, 100⟩

def c2Db : DB := ⟨[c2Fund], 2, [(202401, [c2RowPartition])], [c2RowLegacy], [], [], 1⟩

def c2WitnessRowP : NavRow := ⟨1, 20240115, 3/2, none, none, "p2", 5, 7⟩

def c2WitnessRowL : NavRow := ⟨1, 20240115, 5/2, none, none, "l2", 5, 9⟩

def c3Fund : Fund := ⟨1, "000001", "F", 0, 0⟩

def c3Db : DB := ⟨[c3Fund], 2, [], [], [], [], 1⟩

def c3Inp1 : NavInput := ⟨20240115, 1, none, none⟩

def c3Inp2 : NavInput := ⟨20240115, 2, none, none⟩

def c4Fund : Fund := ⟨7, "007721", "基金A", 0, 0⟩

def c4Pos : Position := ⟨"qq", "u1", 7, 1, 100, 0, 0⟩

def c4Db : DB := ⟨[c4Fund], 8, [], [], [c4Pos], [], 1⟩

def c5Db : DB := ⟨[c4Fund], 8, [], [], [c4Pos], [], 3⟩

def c10Fund2 : Fund := ⟨9, "000300", "基金B", 0, 0⟩

def c10Pos2 : Position := ⟨"qq", "u2", 7, 2, 50, 1, 1⟩

def c10Db : DB := ⟨[c4Fund, c10Fund2], 10, [], [], [c4Pos, c10Pos2], [], 3⟩

/-- The only stored NAV of the C7 fund, three calendar days after the
expected settlement date 2024-01-10. -/
def c7Row : NavRow := ⟨1, 20240113, 3/2, none, none, "s", 0, 9⟩

def c9Trig : Fin 2 → PassTrigger := fun i => if i = 0 then .intraday else .manual

def c9State1 : SchedState (Fin 2) :=
  ⟨false, Function.update (fun _ => TaskPhase.idle) 0 .waiting, c9Trig⟩

def c9State2 : SchedState (Fin 2) :=
  ⟨true, Function.update c9State1.phase 0 .running, c9Trig⟩

def c9State3 : SchedState (Fin 2) :=
  ⟨true, Function.update c9State2.phase 1 .waiting, c9Trig⟩

/-! ## Generic list lemmas -/

theorem any_map_pointwise {α : Type} (f : α → α) (p : α → Bool)
    (h : ∀ x, p (f x) = p x) (l : List α) : (l.map f).any p = l.any p := by
  induction l with
  | nil => rfl
  | cons a l ih => simp [h a, ih]

theorem find?_map_pres {α : Type} (p : α → Bool) (h : α → α)
    (hkeep : ∀ x, p x = true → p (h x) = true)
    (hskip : ∀ x, p x = false → h x = x) (l : List α) :
    (l.map h).find? p = (l.find? p).map h := by
  induction l with
  | nil => rfl
  | cons a l ih =>
      cases hpa : p a with
      | false =>
          have hha : p (h a) = false := by rw [hskip a hpa]; exact hpa
          rw [List.map_cons, List.find?_cons_of_neg _ (by simp [hha]),
            List.find?_cons_of_neg _ (by simp [hpa]), ih]
      | true =>
          rw [List.map_cons, List.find?_cons_of_pos _ (hkeep a hpa),
            List.find?_cons_of_pos _ hpa]
          rfl

theorem find?_map_frame {α : Type} (q : α → Bool) (h : α → α)
    (hq : ∀ x, q (h x) = q x)
    (hfix : ∀ x, q x = true → h x = x) (l : List α) :
    (l.map h).find? q = l.find? q := by
  induction l with
  | nil => rfl
  | cons a l ih =>
      cases hqa : q a with
      | false =>
          have hha : q (h a) = false := by rw [hq a]; exact hqa
          rw [List.map_cons, List.find?_cons_of_neg _ (by simp [hha]),
            List.find?_cons_of_neg _ (by simp [hqa]), ih]
      | true =>
          have hha : q (h a) = true := by rw [hq a]; exact hqa
          rw [List.map_cons, List.find?_cons_of_pos _ hha,
            List.find?_cons_of_pos _ hqa, hfix a hqa]

theorem find?_filter_keep {α : Type} (p keep : α → Bool)
    (h : ∀ x, p x = true → keep x = true) (l : List α) :
    (l.filter keep).find? p = l.find? p := by
  induction l with
  | nil => rfl
  | cons a l ih =>
      by_cases hk : keep a = true
      · simp [List.filter_cons, hk, List.find?_cons, ih]
      · have hp : p a = false := by
          revert hk; cases hpa : p a
          · simp
          · intro hk; exact absurd (h a hpa) hk
        have hk' : keep a = false := by revert hk; cases keep a <;> simp
        simp [List.filter_cons, hk', List.find?_cons, hp, ih]

theorem find?_filter_out_self {α : Type} (p : α → Bool) (l : List α) :
    (l.filter (fun x => !(p x))).find? p = none := by
  rw [List.find?_eq_none]
  intro x hx
  have := (List.mem_filter.mp hx).2
  simp at this
  simp [this]

theorem length_filter_map_pres {α : Type} (p : α → Bool) (h : α → α)
    (hp : ∀ x, p (h x) = p x) (l : List α) :
    ((l.map h).filter p).length = (l.filter p).length := by
  induction l with
  | nil => rfl
  | cons a l ih =>
      by_cases hpa : p a = true
      · simp [List.filter_cons, hp a, hpa, ih]
      · have hpa' : p a = false := by revert hpa; cases p a <;> simp
        simp [List.filter_cons, hp a, hpa', ih]

/-! ## C6 — expected settlement date -/

/-- C6: for every trade time and QDII flag the expected settlement date is
pure calendar-day arithmetic on the trade date: strictly before 15:00 the
offset is +1 (non-QDII) / +2 (QDII) calendar days, at or after 15:00 it is
+2 / +3, for every date alike — no weekend or holiday adjustment. -/
theorem calc_expected_settlement_date_spec (tradeDate minuteOfDay : Nat)
    (isQdii : Bool) :
    (calcExpectedSettlementDate tradeDate minuteOfDay isQdii).1 =
      addDays tradeDate
        (if minuteOfDay < 15 * 60 then (if isQdii then 2 else 1)
         else (if isQdii then 3 else 2)) := by
  cases isQdii <;> by_cases h : minuteOfDay < 15 * 60 <;>
    simp [calcExpectedSettlementDate, h]

/-! ## C9 — scheduler single-flight lock -/

theorem lockInv_step {ι : Type} [DecidableEq ι] {s t : SchedState ι}
    (hinv : LockInv s) (hstep : SchedStep s t) : LockInv t := by
  obtain ⟨h1, h2⟩ := hinv
  cases hstep with
  | request i hi =>
      refine ⟨?_, ?_⟩
      · intro a b ha hb
        dsimp only at ha hb
        have ha' : s.phase a = .running := by
          rcases eq_or_ne a i with h | h
          · subst h; rw [Function.update_same] at ha; cases ha
          · rwa [Function.update_noteq h] at ha
        have hb' : s.phase b = .running := by
          rcases eq_or_ne b i with h | h
          · subst h; rw [Function.update_same] at hb; cases hb
          · rwa [Function.update_noteq h] at hb
        exact h1 a b ha' hb'
      · intro hl a hcon
        dsimp only at hl hcon
        rcases eq_or_ne a i with h | h
        · subst h; rw [Function.update_same] at hcon; cases hcon
        · rw [Function.update_noteq h] at hcon
          exact h2 hl a hcon
  | acquire i hi hl =>
      refine ⟨?_, ?_⟩
      · intro a b ha hb
        dsimp only at ha hb
        have hnone := h2 hl
        have ha' : a = i := by
          by_contra h
          rw [Function.update_noteq h] at ha
          exact hnone a ha
        have hb' : b = i := by
          by_contra h
          rw [Function.update_noteq h] at hb
          exact hnone b hb
        rw [ha', hb']
      · intro hfalse; cases hfalse
  | release i hi =>
      refine ⟨?_, ?_⟩
      · intro a b ha hb
        dsimp only at ha hb
        exfalso
        have hai : a ≠ i := by
          intro h; subst h; rw [Function.update_same] at ha; cases ha
        rw [Function.update_noteq hai] at ha
        exact hai (h1 a i ha hi)
      · intro _ a hcon
        dsimp only at hcon
        have hai : a ≠ i := by
          intro h; subst h; rw [Function.update_same] at hcon; cases hcon
        rw [Function.update_noteq hai] at hcon
        exact hai (h1 a i hcon hi)

/-- C9: in the transition system modelling the sync passes — every pass
(intraday tick, non-workday catch-up or manual request) runs its per-fund
work only between acquiring and releasing the one `_sync_lock` — every
reachable state has at most one pass in its per-fund work, so two
concurrently requested passes never interleave. -/
theorem sched_single_flight {ι : Type} [DecidableEq ι] (trig : ι → PassTrigger)
    (s : SchedState ι) (h : SchedReachable trig s) :
    ∀ i j, s.phase i = .running → s.phase j = .running → i = j := by
  have hinv : LockInv s := by
    induction h with
    | refl =>
        refine ⟨fun i j hi _ => ?_, fun _ i hi => ?_⟩
        · simp [schedInit] at hi
        · simp [schedInit] at hi
    | tail _ hstep ih => exact lockInv_step ih hstep
  exact hinv.1

/-- C9 witness: a concrete reachable state in which an intraday pass holds
the lock and a manual pass waits; the theorem yields that no other task is
running. -/
theorem sched_single_flight_witness :
    SchedReachable c9Trig c9State3 ∧
      ∀ j : Fin 2, c9State3.phase j = .running → j = 0 := by
  have t1 : SchedStep (schedInit c9Trig) c9State1 := SchedStep.request _ 0 rfl
  have t2 : SchedStep c9State1 c9State2 := SchedStep.acquire _ 0 rfl rfl
  have t3 : SchedStep c9State2 c9State3 := SchedStep.request _ 1 rfl
  have hreach : SchedReachable c9Trig c9State3 :=
    Relation.ReflTransGen.head t1
      (Relation.ReflTransGen.head t2 (Relation.ReflTransGen.single t3))
  refine ⟨hreach, fun j hj => sched_single_flight c9Trig c9State3 hreach j 0 hj ?_⟩
  decide

/-! ## C8 — trading-day classifier -/

theorem runHolidayAttempts_succ_ok (oracle : Nat → Option Int)
    (attempt r : Nat) (s : Int) (ho : oracle attempt = some s)
    (hv : holidayStatusValid s = true) :
    runHolidayAttempts oracle attempt (r + 1) =
      (some (holidayStatusIsWorkday s), 1, []) := by
  simp only [runHolidayAttempts, ho]
  simp [hv]

theorem runHolidayAttempts_succ_fail (oracle : Nat → Option Int)
    (attempt r : Nat)
    (hfail : oracle attempt = none ∨
      ∃ s, oracle attempt = some s ∧ holidayStatusValid s = false) :
    runHolidayAttempts oracle attempt (r + 1) =
      if r = 0 then (none, 1, [])
      else ((runHolidayAttempts oracle (attempt + 1) r).1,
            (runHolidayAttempts oracle (attempt + 1) r).2.1 + 1,
            attempt :: (runHolidayAttempts oracle (attempt + 1) r).2.2) := by
  rcases hfail with ho | ⟨s, ho, hv⟩
  · simp only [runHolidayAttempts, ho]
  · simp only [runHolidayAttempts, ho]
    rw [if_neg (by simp [hv])]

theorem runHolidayAttempts_spec (oracle : Nat → Option Int) :
    ∀ (remaining attempt : Nat),
      (runHolidayAttempts oracle attempt remaining).2.1 ≤ remaining ∧
      (1 ≤ remaining → 1 ≤ (runHolidayAttempts oracle attempt remaining).2.1) ∧
      (runHolidayAttempts oracle attempt remaining).2.2 =
        List.range' attempt ((runHolidayAttempts oracle attempt remaining).2.1 - 1) := by
  intro remaining
  induction remaining with
  | zero => intro attempt; simp [runHolidayAttempts]
  | succ r ih =>
      intro attempt
      obtain ⟨hle, hpos, hsl⟩ := ih (attempt + 1)
      by_cases hok : ∃ s, oracle attempt = some s ∧ holidayStatusValid s = true
      · obtain ⟨s, ho, hv⟩ := hok
        rw [runHolidayAttempts_succ_ok oracle attempt r s ho hv]
        exact ⟨Nat.succ_le_succ (Nat.zero_le r), fun _ => Nat.le_refl 1,
          by simp [List.range']⟩
      · have hfail : oracle attempt = none ∨
            ∃ s, oracle attempt = some s ∧ holidayStatusValid s = false := by
          cases ho : oracle attempt with
          | none => exact Or.inl rfl
          | some s =>
              refine Or.inr ⟨s, rfl, ?_⟩
              cases hv : holidayStatusValid s
              · rfl
              · exact absurd ⟨s, ho, hv⟩ hok
        rw [runHolidayAttempts_succ_fail oracle attempt r hfail]
        by_cases hr : r = 0
        · rw [if_pos hr]
          exact ⟨Nat.succ_le_succ (Nat.zero_le r), fun _ => Nat.le_refl 1,
            by simp [List.range']⟩
        · rw [if_neg hr]
          dsimp only
          refine ⟨Nat.add_le_add_right hle 1,
            fun _ => Nat.succ_le_succ (Nat.zero_le _), ?_⟩
          rw [Nat.add_sub_cancel, hsl]
          obtain ⟨c, hc⟩ :
              ∃ c, (runHolidayAttempts oracle (attempt + 1) r).2.1 = c + 1 := by
            have h1 : 1 ≤ (runHolidayAttempts oracle (attempt + 1) r).2.1 :=
              hpos (Nat.one_le_iff_ne_zero.mpr hr)
            exact ⟨(runHolidayAttempts oracle (attempt + 1) r).2.1 - 1, by omega⟩
          rw [hc]
          simp [List.range'_succ]

theorem runHolidayAttempts_exhaust (oracle : Nat → Option Int)
    (h : ∀ n s, oracle n = some s → holidayStatusValid s = false) :
    ∀ (remaining attempt : Nat),
      (runHolidayAttempts oracle attempt remaining).1 = none := by
  intro remaining
  induction remaining with
  | zero => intro attempt; simp [runHolidayAttempts]
  | succ r ih =>
      intro attempt
      have hfail : oracle attempt = none ∨
          ∃ s, oracle attempt = some s ∧ holidayStatusValid s = false := by
        cases ho : oracle attempt with
        | none => exact Or.inl rfl
        | some s => exact Or.inr ⟨s, rfl, h attempt s ho⟩
      rw [runHolidayAttempts_succ_fail oracle attempt r hfail]
      by_cases hr : r = 0
      · rw [if_pos hr]
      · rw [if_neg hr]
        exact ih (attempt + 1)

/-- C8: on a cache miss the classifier makes at most the configured number
of external calls, sleeps linearly increasing amounts (1s, 2s, ...) between
attempts, returns the pure Monday-Friday heuristic when every attempt
fails, and caches the result per date so that a later call for the same
date answers from the cache with no further external call. -/
theorem is_workday_spec (cache : List (Nat × Bool)) (oracle : Nat → Option Int)
    (maxRetries d : Nat) (hmiss : cacheLookup cache d = none)
    (hmax : 1 ≤ maxRetries) :
    (isWorkday cache oracle maxRetries d).calls ≤ maxRetries ∧
    (isWorkday cache oracle maxRetries d).sleeps =
      List.range' 1 ((isWorkday cache oracle maxRetries d).calls - 1) ∧
    ((∀ n s, oracle n = some s → holidayStatusValid s = false) →
      (isWorkday cache oracle maxRetries d).result = isWeekdayDate d) ∧
    cacheLookup (isWorkday cache oracle maxRetries d).cache d =
      some (isWorkday cache oracle maxRetries d).result ∧
    (∀ (oracle2 : Nat → Option Int) (maxRetries2 : Nat),
      isWorkday (isWorkday cache oracle maxRetries d).cache oracle2 maxRetries2 d =
        ⟨(isWorkday cache oracle maxRetries d).result, 0, [],
         (isWorkday cache oracle maxRetries d).cache⟩) := by
  obtain ⟨hle, _, hsl⟩ := runHolidayAttempts_spec oracle maxRetries 1
  have hout : isWorkday cache oracle maxRetries d =
      ⟨(match (runHolidayAttempts oracle 1 maxRetries).1 with
        | some b => b
        | none => isWeekdayDate d),
       (runHolidayAttempts oracle 1 maxRetries).2.1,
       (runHolidayAttempts oracle 1 maxRetries).2.2,
       (d, (match (runHolidayAttempts oracle 1 maxRetries).1 with
            | some b => b
            | none => isWeekdayDate d)) :: cache⟩ := by
    simp [isWorkday, hmiss]
  have hcachehit :
      cacheLookup (isWorkday cache oracle maxRetries d).cache d =
        some (isWorkday cache oracle maxRetries d).result := by
    rw [hout]; simp [cacheLookup]
  refine ⟨by rw [hout]; exact hle, by rw [hout]; exact hsl, ?_, hcachehit, ?_⟩
  · intro hfail
    have := runHolidayAttempts_exhaust oracle hfail maxRetries 1
    rw [hout]
    simp [this]
  · intro oracle2 maxRetries2
    rw [isWorkday, hcachehit]

/-- C8 witness: a permanently failing classifier on 2025-10-11 (a
Saturday) with three configured attempts. -/
theorem is_workday_spec_witness :
    (isWorkday [] c8OracleFail 3 20251011).calls ≤ 3 ∧
    (isWorkday [] c8OracleFail 3 20251011).sleeps =
      List.range' 1 ((isWorkday [] c8OracleFail 3 20251011).calls - 1) ∧
    (isWorkday [] c8OracleFail 3 20251011).result = isWeekdayDate 20251011 ∧
    cacheLookup (isWorkday [] c8OracleFail 3 20251011).cache 20251011 =
      some (isWorkday [] c8OracleFail 3 20251011).result ∧
    isWorkday (isWorkday [] c8OracleFail 3 20251011).cache c8OracleFail 3 20251011 =
      ⟨(isWorkday [] c8OracleFail 3 20251011).result, 0, [],
       (isWorkday [] c8OracleFail 3 20251011).cache⟩ := by
  obtain ⟨h1, h2, h3, h4, h5⟩ :=
    is_workday_spec [] c8OracleFail 3 20251011 rfl (by decide)
  exact ⟨h1, h2, h3 (fun n s h => by cases h), h4, h5 c8OracleFail 3⟩

/-! ## C1 — empty history fetch in a sync pass -/

/-- C1 counterexample: a fund whose history fetch returns an empty list is
counted under `funds_failed` with an error message recorded, and is not
counted under `funds_no_new_data` — refuting the claim that an empty fetch
is treated as "no new data" with no error. -/
theorem sync_empty_history_counterexample :
    (syncFundsNav c1Env c1Cfg c1Funds false "manual").fundsFailed = 1 ∧
    (syncFundsNav c1Env c1Cfg c1Funds false "manual").fundsNoNewData = 0 ∧
    (syncFundsNav c1Env c1Cfg c1Funds false "manual").errors =
      ["000001 无历史数据"] := by
  decide

/-- C1 (amended): for every fund with a valid six-digit code processed in a
sync pass, a history fetch that returns `None` or an empty list marks the
fund failed: `funds_failed` is incremented and the error message
"code 无历史数据" is recorded (subject to the 20-entry error cap), while
`funds_no_new_data` is left unchanged; only a non-empty history whose
records all fall at or before the stored latest date counts as no new
data. -/
theorem sync_empty_history_marks_failed (env : SyncEnv) (cfg : SyncConfig)
    (forceFull : Bool) (trigger : String) (stats : SyncStats) (fund : FundRef)
    (h1 : normalizeFundCodeText fund.fundCode ≠ "")
    (h2 : isDigits (normalizeFundCodeText fund.fundCode) = true)
    (h3 : (normalizeFundCodeText fund.fundCode).length = 6)
    (hfetch :
      env.fetchHistory (normalizeFundCodeText fund.fundCode)
          (calcNavFetchDays cfg
            (if forceFull then none
             else env.latestNavDate (normalizeFundCodeText fund.fundCode))
            forceFull env.today) = .value none ∨
      env.fetchHistory (normalizeFundCodeText fund.fundCode)
          (calcNavFetchDays cfg
            (if forceFull then none
             else env.latestNavDate (normalizeFundCodeText fund.fundCode))
            forceFull env.today) = .value (some [])) :
    syncOneFund env cfg forceFull trigger stats fund =
      appendStatsError { stats with fundsFailed := stats.fundsFailed + 1 }
        (normalizeFundCodeText fund.fundCode ++ " 无历史数据") := by
  unfold syncOneFund
  rw [if_neg (by simp [h1, h2, h3])]
  dsimp only
  rcases hfetch with h | h <;> rw [h] <;> simp

/-- C1 witness for the amended claim at a concrete pass. -/
theorem sync_empty_history_marks_failed_witness :
    syncOneFund c1Env c1Cfg false "manual" ⟨1, 0, 0, 0, 0, 0, []⟩ ⟨"000001", ""⟩ =
      appendStatsError ⟨1, 0, 0, 1, 0, 0, []⟩ ("000001" ++ " 无历史数据") := by
  have h := sync_empty_history_marks_failed c1Env c1Cfg false "manual"
    ⟨1, 0, 0, 0, 0, 0, []⟩ ⟨"000001", ""⟩ (by decide) (by decide) (by decide)
    (Or.inr rfl)
  exact h

/-! ## C2 — duplicated date across NAV segments -/

/-- C2 counterexample: for a date stored both in a monthly partition
(`updated_at = 50`) and in the legacy table (`updated_at = 100`), the range
query returns the partition's record, not the record with the greater
`updated_at`. -/
theorem list_nav_history_updated_at_counterexample :
    listFundNavHistory c2Db "000001" none none 120 = [c2RowPartition] ∧
    c2RowLegacy ∈ c2Db.legacy ∧
    c2RowLegacy.fundId = c2RowPartition.fundId ∧
    c2RowLegacy.navDate = c2RowPartition.navDate ∧
    c2RowPartition.updatedAt < c2RowLegacy.updatedAt := by
  decide

/-- C2 (amended): when the same (fund, nav_date) key is stored both in a
monthly partition and in the legacy table, `list_fund_nav_history` returns
the partition's record for that date whatever the two records'
`updated_at` values are: segments are queried in descending order with the
legacy table last and the first-seen record per date wins; the final
`(date desc, updated_at desc)` sort only orders records of distinct
dates. -/
theorem list_nav_history_first_segment_wins
    (f : Fund) (nf nl : Nat) (rp rl : NavRow)
    (pos : List Position) (logs : List PosLog)
    (hc : normalizeFundCode f.fundCode = f.fundCode) (hc0 : f.fundCode ≠ "")
    (hfp : rp.fundId = f.id) (hfl : rl.fundId = f.id)
    (hdate : rl.navDate = rp.navDate) :
    listFundNavHistory
      ⟨[f], nf, [(monthKeyOfDate rp.navDate, [rp])], [rl], pos, logs, nl⟩
      f.fundCode none none 120 = [rp] := by
  simp only [listFundNavHistory, hc]
  rw [if_neg hc0]
  simp only [fundIdForCode, findFundByCode, List.find?_cons, beq_self_eq_true,
    Option.map_some]
  simp only [resolveNavTables, clampNavLimit, queryNavTableDesc, getPartition,
    dedupByDate, List.map_cons, List.map_nil, List.filter_cons, List.filter_nil,
    List.find?_cons, beq_self_eq_true, hfp, hfl, hdate, List.foldr,
    List.insertionSort, List.orderedInsert]
  simp [hdate, dedupByDate, List.insertionSort, List.orderedInsert]

/-- C2 witness for the amended claim: here the legacy record has the
greater `updated_at` (9 versus 7) and the partition record still wins. -/
theorem list_nav_history_first_segment_wins_witness :
    listFundNavHistory
      ⟨[c2Fund], 2, [(202401, [c2WitnessRowP])], [c2WitnessRowL], [], [], 1⟩
      "000001" none none 120 = [c2WitnessRowP] :=
  list_nav_history_first_segment_wins c2Fund 2 1 c2WitnessRowP c2WitnessRowL
    [] [] (by decide) (by decide) rfl rfl rfl

/-! ## Store-preservation lemmas for `ensureFund` -/

theorem ensureFund_positions (db : DB) (code name : String) (now : Nat) :
    (ensureFund db code name now).1.positions = db.positions := by
  unfold ensureFund
  cases h : findFundByCode db.funds code <;> simp

theorem ensureFund_partitions (db : DB) (code name : String) (now : Nat) :
    (ensureFund db code name now).1.partitions = db.partitions := by
  unfold ensureFund
  cases h : findFundByCode db.funds code <;> simp

theorem ensureFund_legacy (db : DB) (code name : String) (now : Nat) :
    (ensureFund db code name now).1.legacy = db.legacy := by
  unfold ensureFund
  cases h : findFundByCode db.funds code <;> simp

theorem ensureFund_logs (db : DB) (code name : String) (now : Nat) :
    (ensureFund db code name now).1.logs = db.logs := by
  unfold ensureFund
  cases h : findFundByCode db.funds code <;> simp

theorem ensureFund_nextLogId (db : DB) (code name : String) (now : Nat) :
    (ensureFund db code name now).1.nextLogId = db.nextLogId := by
  unfold ensureFund
  cases h : findFundByCode db.funds code <;> simp

theorem ensureFund_id_of_found (db : DB) (code name : String) (now : Nat)
    (f0 : Fund) (hf : findFundByCode db.funds code = some f0) :
    (ensureFund db code name now).2 = f0.id := by
  unfold ensureFund
  rw [hf]

theorem ensureFund_find_of_found (db : DB) (code name : String) (now : Nat)
    (f0 : Fund) (hf : findFundByCode db.funds code = some f0) :
    findFundByCode (ensureFund db code name now).1.funds code =
      some { f0 with
             fundName := if name ≠ "" then name else f0.fundName,
             updatedAt := now } := by
  have hkey : (f0.fundCode == code) = true :=
    List.find?_some (p := fun f : Fund => f.fundCode == code) hf
  have hfcast : db.funds.find? (fun f : Fund => f.fundCode == code) = some f0 := hf
  unfold ensureFund
  rw [hf]
  show (db.funds.map (fun g => if g.fundCode == code then
      { g with
        fundName := if name ≠ "" then name else g.fundName,
        updatedAt := now } else g)).find?
      (fun f : Fund => f.fundCode == code) = _
  rw [find?_map_pres (fun f : Fund => f.fundCode == code)
    (fun g => if g.fundCode == code then
      { g with
        fundName := if name ≠ "" then name else g.fundName,
        updatedAt := now } else g)
    (fun x hx => by dsimp only; rw [if_pos hx]; exact hx)
    (fun x hx => by dsimp only; exact if_neg (by simp [hx]))
    db.funds, hfcast]
  have heq : f0.fundCode = code := by simpa using hkey
  simp [heq]

/-! ## C4 — weighted-average merge on repeated add -/

/-- C4: for an existing position with cost `p0.avgCost` and shares
`p0.shares`, `add_or_merge_position` with positive incoming cost and
shares stores merged shares `s0+s1` and the weighted-average cost
`(c0*s0 + c1*s1)/(s0+s1)`; and a merge whose resulting shares would be
non-positive is rejected with a validation error, the transaction rolled
back before any write survives. -/
theorem add_or_merge_position_spec (db : DB)
    (platform userId fundCode name : String) (c1 s1 : Rat) (now : Nat)
    (f0 : Fund) (p0 : Position)
    (hu : normalizeKey userId "" ≠ "")
    (hcode : normalizeFundCode fundCode ≠ "")
    (hc1 : 0 < c1) (hs1 : 0 < s1)
    (hf : findFundByCode db.funds (normalizeFundCode fundCode) = some f0)
    (hp : findPosition db.positions (normalizeKey platform "unknown")
      (normalizeKey userId "") f0.id = some p0) :
    (0 < p0.shares + s1 →
      ∃ db2, addOrMergePosition db platform userId fundCode c1 s1 name now =
          .ok (db2,
            { p0 with
              avgCost := (p0.avgCost * p0.shares + c1 * s1) / (p0.shares + s1),
              shares := p0.shares + s1,
              updatedAt := now }) ∧
        findPosition db2.positions (normalizeKey platform "unknown")
            (normalizeKey userId "") f0.id =
          some { p0 with
                 avgCost := (p0.avgCost * p0.shares + c1 * s1) / (p0.shares + s1),
                 shares := p0.shares + s1,
                 updatedAt := now }) ∧
    (p0.shares + s1 ≤ 0 →
      addOrMergePosition db platform userId fundCode c1 s1 name now =
        .error "合并后的持有份额必须大于 0") := by
  have hbody : addOrMergePosition db platform userId fundCode c1 s1 name now =
      upsertPositionTx (ensureFund db (normalizeFundCode fundCode) (pyStrip name) now).1
        (normalizeKey platform "unknown") (normalizeKey userId "")
        (ensureFund db (normalizeFundCode fundCode) (pyStrip name) now).2
        c1 s1 now := by
    unfold addOrMergePosition
    rw [if_neg hu, if_neg hcode, if_neg (not_le.mpr hc1), if_neg (not_le.mpr hs1)]
  have hfid := ensureFund_id_of_found db (normalizeFundCode fundCode)
    (pyStrip name) now f0 hf
  have hpres := ensureFund_positions db (normalizeFundCode fundCode)
    (pyStrip name) now
  have hfind : findPosition
      (ensureFund db (normalizeFundCode fundCode) (pyStrip name) now).1.positions
      (normalizeKey platform "unknown") (normalizeKey userId "")
      (ensureFund db (normalizeFundCode fundCode) (pyStrip name) now).2 =
      some p0 := by
    rw [hpres, hfid]; exact hp
  have hp0key : posKeyMatch (normalizeKey platform "unknown")
      (normalizeKey userId "") f0.id p0 = true :=
    List.find?_some (p := posKeyMatch (normalizeKey platform "unknown")
      (normalizeKey userId "") f0.id) hp
  constructor
  · intro hposshare
    rw [hbody]
    unfold upsertPositionTx
    rw [hfind]
    dsimp only
    rw [if_neg (not_le.mpr hposshare), hfid, hpres]
    refine ⟨_, rfl, ?_⟩
    have hpcast : db.positions.find? (posKeyMatch
        (normalizeKey platform "unknown") (normalizeKey userId "") f0.id) =
        some p0 := hp
    show (db.positions.map (fun q => if posKeyMatch
        (normalizeKey platform "unknown") (normalizeKey userId "") f0.id q then
        { q with
          avgCost := (p0.avgCost * p0.shares + c1 * s1) / (p0.shares + s1),
          shares := p0.shares + s1, updatedAt := now }
        else q)).find? (posKeyMatch (normalizeKey platform "unknown")
        (normalizeKey userId "") f0.id) = _
    rw [find?_map_pres
      (posKeyMatch (normalizeKey platform "unknown") (normalizeKey userId "")
        f0.id)
      (fun q => if posKeyMatch (normalizeKey platform "unknown")
          (normalizeKey userId "") f0.id q then
        { q with
          avgCost := (p0.avgCost * p0.shares + c1 * s1) / (p0.shares + s1),
          shares := p0.shares + s1, updatedAt := now }
        else q)
      (fun x hx => by dsimp only; rw [if_pos hx]; exact hx)
      (fun x hx => by dsimp only; exact if_neg (by simp [hx]))
      db.positions, hpcast]
    simp [hp0key]
  · intro hneg
    rw [hbody]
    unfold upsertPositionTx
    rw [hfind]
    dsimp only
    rw [if_pos hneg]

/-- C4 witness: merging `(cost 2, shares 100)` into an existing position
`(cost 1, shares 100)` yields shares 200 at weighted-average cost 3/2; the
raw code "7721" is normalised to "007721" on the way. -/
theorem add_or_merge_position_spec_witness :
    ∃ db2, addOrMergePosition c4Db "qq" "u1" "7721" 2 100 "" 99 =
        .ok (db2, { c4Pos with avgCost := 3 / 2, shares := 200, updatedAt := 99 }) ∧
      findPosition db2.positions "qq" "u1" 7 =
        some { c4Pos with avgCost := 3 / 2, shares := 200, updatedAt := 99 } := by
  obtain ⟨db2, h1, h2⟩ := (add_or_merge_position_spec c4Db "qq" "u1" "7721" ""
    2 100 99 c4Fund c4Pos (by decide) (by decide) (by norm_num) (by norm_num)
    (by decide) (by decide)).1 (by norm_num [c4Pos])
  refine ⟨db2, ?_, ?_⟩
  · rw [h1]
    norm_num [c4Pos]
  · rw [show (7 : Nat) = c4Fund.id from rfl,
      show ("qq" : String) = normalizeKey "qq" "unknown" from by decide,
      show ("u1" : String) = normalizeKey "u1" "" from by decide, h2]
    norm_num [c4Pos]

/-! ## C5 — reduction boundary with epsilon tolerance -/

/-- C5: for a position holding `row.shares`, `reduce_position` and
`reduce_position_with_log` fail with the exceeds-holding validation error
exactly when the sell amount exceeds the holding by more than `1e-8`,
leaving the store untouched; otherwise the remainder is computed, a
remainder within `1e-8` deletes the row and reports `shares_after`
exactly 0 with `position_deleted` true, and a larger remainder updates the
row in place to the remainder. -/
theorem reduce_position_spec (db : DB)
    (platform userId fundCode action : String)
    (s : Rat) (now : Nat) (row : Position)
    (settlementNav profitAmount : Option Rat)
    (settlementNavDate expectedSettlementDate : Option Nat)
    (settlementRule note fundName : String)
    (hu : normalizeKey userId "" ≠ "")
    (hcode : normalizeFundCode fundCode ≠ "")
    (ha : pyLower (pyStrip action) ≠ "")
    (hs : 0 < s)
    (hp : findPositionByCode db (normalizeKey platform "unknown")
      (normalizeKey userId "") (normalizeFundCode fundCode) = some row) :
    (row.shares + eps < s →
      reducePosition db platform userId fundCode s now =
        .error "卖出份额不能超过当前持有份额") ∧
    (s ≤ row.shares + eps → row.shares - s ≤ eps →
      ∃ db2, reducePosition db platform userId fundCode s now =
          .ok (db2, ⟨normalizeKey platform "unknown", normalizeKey userId "",
            row.fundId, row.avgCost, row.shares, s, 0, true⟩) ∧
        findPosition db2.positions (normalizeKey platform "unknown")
          (normalizeKey userId "") row.fundId = none) ∧
    (s ≤ row.shares + eps → eps < row.shares - s →
      ∃ db2, reducePosition db platform userId fundCode s now =
          .ok (db2, ⟨normalizeKey platform "unknown", normalizeKey userId "",
            row.fundId, row.avgCost, row.shares, s, row.shares - s, false⟩) ∧
        findPosition db2.positions (normalizeKey platform "unknown")
            (normalizeKey userId "") row.fundId =
          some { row with shares := row.shares - s, updatedAt := now }) ∧
    (row.shares + eps < s →
      reducePositionWithLog db platform userId fundCode s action
          settlementNav settlementNavDate expectedSettlementDate
          settlementRule profitAmount note fundName now =
        .error "卖出份额不能超过当前持有份额") ∧
    (s ≤ row.shares + eps → row.shares - s ≤ eps →
      ∃ db2, reducePositionWithLog db platform userId fundCode s action
            settlementNav settlementNavDate expectedSettlementDate
            settlementRule profitAmount note fundName now =
          .ok (db2, ⟨⟨normalizeKey platform "unknown", normalizeKey userId "",
            row.fundId, row.avgCost, row.shares, s, 0, true⟩,
            pyLower (pyStrip action), db.nextLogId⟩) ∧
        findPosition db2.positions (normalizeKey platform "unknown")
          (normalizeKey userId "") row.fundId = none) ∧
    (s ≤ row.shares + eps → eps < row.shares - s →
      ∃ db2, reducePositionWithLog db platform userId fundCode s action
            settlementNav settlementNavDate expectedSettlementDate
            settlementRule profitAmount note fundName now =
          .ok (db2, ⟨⟨normalizeKey platform "unknown", normalizeKey userId "",
            row.fundId, row.avgCost, row.shares, s, row.shares - s, false⟩,
            pyLower (pyStrip action), db.nextLogId⟩) ∧
        findPosition db2.positions (normalizeKey platform "unknown")
            (normalizeKey userId "") row.fundId =
          some { row with shares := row.shares - s, updatedAt := now }) := by
  have hfind2 : db.positions.find? (posKeyMatch (normalizeKey platform "unknown")
      (normalizeKey userId "") row.fundId) = some row := by
    unfold findPositionByCode at hp
    cases hfid : fundIdForCode db (normalizeFundCode fundCode) with
    | none => rw [hfid] at hp; cases hp
    | some fid =>
        rw [hfid] at hp
        have h1 := List.find?_some (p := posKeyMatch
          (normalizeKey platform "unknown") (normalizeKey userId "") fid) hp
        have h2 : row.fundId = fid := by
          simp [posKeyMatch] at h1
          tauto
        rw [h2]
        exact hp
  have hrowkey : posKeyMatch (normalizeKey platform "unknown")
      (normalizeKey userId "") row.fundId row = true :=
    List.find?_some (p := posKeyMatch (normalizeKey platform "unknown")
      (normalizeKey userId "") row.fundId) hfind2
  have hdb0pos : (if pyStrip fundName ≠ "" then
      (ensureFund db (normalizeFundCode fundCode) (pyStrip fundName) now).1
      else db).positions = db.positions := by
    by_cases h : pyStrip fundName ≠ "" <;> simp [h, ensureFund_positions]
  have hdb0log : (if pyStrip fundName ≠ "" then
      (ensureFund db (normalizeFundCode fundCode) (pyStrip fundName) now).1
      else db).nextLogId = db.nextLogId := by
    by_cases h : pyStrip fundName ≠ "" <;> simp [h, ensureFund_nextLogId]
  refine ⟨?_, ?_, ?_, ?_, ?_, ?_⟩
  · intro hexceed
    unfold reducePosition
    rw [if_neg hu, if_neg hcode, if_neg (not_le.mpr hs), hp]
    dsimp only
    rw [if_pos hexceed]
  · intro hok hdel
    unfold reducePosition
    rw [if_neg hu, if_neg hcode, if_neg (not_le.mpr hs), hp]
    dsimp only
    rw [if_neg (not_lt.mpr hok), if_pos hdel]
    exact ⟨_, rfl, find?_filter_out_self _ _⟩
  · intro hok hupd
    unfold reducePosition
    rw [if_neg hu, if_neg hcode, if_neg (not_le.mpr hs), hp]
    dsimp only
    rw [if_neg (not_lt.mpr hok), if_neg (not_le.mpr hupd)]
    refine ⟨_, rfl, ?_⟩
    show (db.positions.map (fun q => if posKeyMatch
        (normalizeKey platform "unknown") (normalizeKey userId "")
        row.fundId q then
        { q with shares := row.shares - s, updatedAt := now } else q)).find?
        (posKeyMatch (normalizeKey platform "unknown")
          (normalizeKey userId "") row.fundId) = _
    rw [find?_map_pres
      (posKeyMatch (normalizeKey platform "unknown") (normalizeKey userId "")
        row.fundId)
      (fun q => if posKeyMatch (normalizeKey platform "unknown")
          (normalizeKey userId "") row.fundId q then
        { q with shares := row.shares - s, updatedAt := now } else q)
      (fun x hx => by dsimp only; rw [if_pos hx]; exact hx)
      (fun x hx => by dsimp only; exact if_neg (by simp [hx]))
      db.positions, hfind2]
    simp [hrowkey]
  · intro hexceed
    unfold reducePositionWithLog
    rw [if_neg hu, if_neg hcode, if_neg ha, if_neg (not_le.mpr hs), hp]
    dsimp only
    rw [if_pos hexceed]
  · intro hok hdel
    unfold reducePositionWithLog
    rw [if_neg hu, if_neg hcode, if_neg ha, if_neg (not_le.mpr hs), hp]
    dsimp only
    rw [if_neg (not_lt.mpr hok)]
    simp only [if_pos hdel, decide_eq_true hdel, hdb0log]
    refine ⟨_, rfl, ?_⟩
    exact find?_filter_out_self _ _
  · intro hok hupd
    unfold reducePositionWithLog
    rw [if_neg hu, if_neg hcode, if_neg ha, if_neg (not_le.mpr hs), hp]
    dsimp only
    have hdel' : ¬(row.shares - s ≤ eps) := not_le.mpr hupd
    rw [if_neg (not_lt.mpr hok)]
    simp only [if_neg hdel', decide_eq_false hdel', hdb0log]
    refine ⟨_, rfl, ?_⟩
    show ((if pyStrip fundName ≠ "" then
        (ensureFund db (normalizeFundCode fundCode) (pyStrip fundName) now).1
        else db).positions.map (fun q => if posKeyMatch
        (normalizeKey platform "unknown") (normalizeKey userId "")
        row.fundId q then
        { q with shares := row.shares - s, updatedAt := now } else q)).find?
        (posKeyMatch (normalizeKey platform "unknown")
          (normalizeKey userId "") row.fundId) = _
    rw [hdb0pos]
    rw [find?_map_pres
      (posKeyMatch (normalizeKey platform "unknown") (normalizeKey userId "")
        row.fundId)
      (fun q => if posKeyMatch (normalizeKey platform "unknown")
          (normalizeKey userId "") row.fundId q then
        { q with shares := row.shares - s, updatedAt := now } else q)
      (fun x hx => by dsimp only; rw [if_pos hx]; exact hx)
      (fun x hx => by dsimp only; exact if_neg (by simp [hx]))
      db.positions, hfind2]
    simp [hrowkey]

/-- C5 witness: reducing a 100-share position by exactly 100 succeeds,
deletes the row and reports `shares_after = 0`, `position_deleted = true`. -/
theorem reduce_position_spec_witness :
    ∃ db2, reducePosition c5Db "qq" "u1" "007721" 100 50 =
        .ok (db2, ⟨"qq", "u1", 7, 1, 100, 100, 0, true⟩) ∧
      findPosition db2.positions "qq" "u1" 7 = none := by
  obtain ⟨db2, h1, h2⟩ := (reduce_position_spec c5Db "qq" "u1" "007721"
    "clear" 100 50 c4Pos none none none none "" "" "" (by decide) (by decide)
    (by decide) (by norm_num) (by decide)).2.1
    (by norm_num [c4Pos, eps]) (by norm_num [c4Pos, eps])
  exact ⟨db2, h1, h2⟩

/-! ## C10 — frame effect of the in-place reduction -/

/-- C10: when a reduction leaves the position row in place (remaining
shares above the `1e-8` tolerance), both `reduce_position` and
`reduce_position_with_log` change only the `shares` and `updated_at`
columns of that one row — `avg_cost` and `created_at` are preserved — and
the position row of every other `(platform, user, fund)` key is left
exactly as it was. -/
theorem reduce_position_frame (db : DB)
    (platform userId fundCode action : String)
    (s : Rat) (now : Nat) (row : Position)
    (settlementNav profitAmount : Option Rat)
    (settlementNavDate expectedSettlementDate : Option Nat)
    (settlementRule note fundName : String)
    (hu : normalizeKey userId "" ≠ "")
    (hcode : normalizeFundCode fundCode ≠ "")
    (ha : pyLower (pyStrip action) ≠ "")
    (hs : 0 < s)
    (hp : findPositionByCode db (normalizeKey platform "unknown")
      (normalizeKey userId "") (normalizeFundCode fundCode) = some row)
    (hok : s ≤ row.shares + eps) (hupd : eps < row.shares - s) :
    (∃ db2, reducePosition db platform userId fundCode s now =
        .ok (db2, ⟨normalizeKey platform "unknown", normalizeKey userId "",
          row.fundId, row.avgCost, row.shares, s, row.shares - s, false⟩) ∧
      findPosition db2.positions (normalizeKey platform "unknown")
          (normalizeKey userId "") row.fundId =
        some { row with shares := row.shares - s, updatedAt := now } ∧
      (∀ pf u fid2, ¬(pf = normalizeKey platform "unknown" ∧
          u = normalizeKey userId "" ∧ fid2 = row.fundId) →
        findPosition db2.positions pf u fid2 =
          findPosition db.positions pf u fid2)) ∧
    (∃ db2, reducePositionWithLog db platform userId fundCode s action
          settlementNav settlementNavDate expectedSettlementDate
          settlementRule profitAmount note fundName now =
        .ok (db2, ⟨⟨normalizeKey platform "unknown", normalizeKey userId "",
          row.fundId, row.avgCost, row.shares, s, row.shares - s, false⟩,
          pyLower (pyStrip action), db.nextLogId⟩) ∧
      findPosition db2.positions (normalizeKey platform "unknown")
          (normalizeKey userId "") row.fundId =
        some { row with shares := row.shares - s, updatedAt := now } ∧
      (∀ pf u fid2, ¬(pf = normalizeKey platform "unknown" ∧
          u = normalizeKey userId "" ∧ fid2 = row.fundId) →
        findPosition db2.positions pf u fid2 =
          findPosition db.positions pf u fid2)) := by
  have hfind2 : db.positions.find? (posKeyMatch (normalizeKey platform "unknown")
      (normalizeKey userId "") row.fundId) = some row := by
    unfold findPositionByCode at hp
    cases hfid : fundIdForCode db (normalizeFundCode fundCode) with
    | none => rw [hfid] at hp; cases hp
    | some fid =>
        rw [hfid] at hp
        have h1 := List.find?_some (p := posKeyMatch
          (normalizeKey platform "unknown") (normalizeKey userId "") fid) hp
        have h2 : row.fundId = fid := by
          simp [posKeyMatch] at h1
          tauto
        rw [h2]
        exact hp
  have hrowkey : posKeyMatch (normalizeKey platform "unknown")
      (normalizeKey userId "") row.fundId row = true :=
    List.find?_some (p := posKeyMatch (normalizeKey platform "unknown")
      (normalizeKey userId "") row.fundId) hfind2
  have hdb0pos : (if pyStrip fundName ≠ "" then
      (ensureFund db (normalizeFundCode fundCode) (pyStrip fundName) now).1
      else db).positions = db.positions := by
    by_cases h : pyStrip fundName ≠ "" <;> simp [h, ensureFund_positions]
  have hdb0log : (if pyStrip fundName ≠ "" then
      (ensureFund db (normalizeFundCode fundCode) (pyStrip fundName) now).1
      else db).nextLogId = db.nextLogId := by
    by_cases h : pyStrip fundName ≠ "" <;> simp [h, ensureFund_nextLogId]
  have hself : (db.positions.map (fun q => if posKeyMatch
      (normalizeKey platform "unknown") (normalizeKey userId "")
      row.fundId q then
      { q with shares := row.shares - s, updatedAt := now } else q)).find?
      (posKeyMatch (normalizeKey platform "unknown")
        (normalizeKey userId "") row.fundId) =
      some { row with shares := row.shares - s, updatedAt := now } := by
    rw [find?_map_pres
      (posKeyMatch (normalizeKey platform "unknown") (normalizeKey userId "")
        row.fundId)
      (fun q => if posKeyMatch (normalizeKey platform "unknown")
          (normalizeKey userId "") row.fundId q then
        { q with shares := row.shares - s, updatedAt := now } else q)
      (fun x hx => by dsimp only; rw [if_pos hx]; exact hx)
      (fun x hx => by dsimp only; exact if_neg (by simp [hx]))
      db.positions, hfind2]
    simp [hrowkey]
  have hframe : ∀ pf u fid2, ¬(pf = normalizeKey platform "unknown" ∧
      u = normalizeKey userId "" ∧ fid2 = row.fundId) →
      (db.positions.map (fun q => if posKeyMatch
        (normalizeKey platform "unknown") (normalizeKey userId "")
        row.fundId q then
        { q with shares := row.shares - s, updatedAt := now } else q)).find?
        (posKeyMatch pf u fid2) =
      db.positions.find? (posKeyMatch pf u fid2) := by
    intro pf u fid2 hne
    refine find?_map_frame (posKeyMatch pf u fid2)
      (fun q => if posKeyMatch (normalizeKey platform "unknown")
          (normalizeKey userId "") row.fundId q then
        { q with shares := row.shares - s, updatedAt := now } else q)
      (fun x => ?_) (fun x hqx => ?_) db.positions
    · dsimp only
      cases hpx : posKeyMatch (normalizeKey platform "unknown")
          (normalizeKey userId "") row.fundId x with
      | false => rfl
      | true => rfl
    · dsimp only
      cases hpx : posKeyMatch (normalizeKey platform "unknown")
          (normalizeKey userId "") row.fundId x with
      | false => rfl
      | true =>
          exfalso
          apply hne
          simp [posKeyMatch] at hpx hqx
          obtain ⟨⟨hq1, hq2⟩, hq3⟩ := hqx
          obtain ⟨⟨hp1, hp2⟩, hp3⟩ := hpx
          exact ⟨hq1.symm.trans hp1, hq2.symm.trans hp2, hq3.symm.trans hp3⟩
  constructor
  · unfold reducePosition
    rw [if_neg hu, if_neg hcode, if_neg (not_le.mpr hs), hp]
    dsimp only
    rw [if_neg (not_lt.mpr hok), if_neg (not_le.mpr hupd)]
    exact ⟨_, rfl, hself, hframe⟩
  · unfold reducePositionWithLog
    rw [if_neg hu, if_neg hcode, if_neg ha, if_neg (not_le.mpr hs), hp]
    dsimp only
    have hdel' : ¬(row.shares - s ≤ eps) := not_le.mpr hupd
    rw [if_neg (not_lt.mpr hok)]
    simp only [if_neg hdel', decide_eq_false hdel', hdb0log]
    refine ⟨_, rfl, ?_, ?_⟩
    · show ((if pyStrip fundName ≠ "" then
        (ensureFund db (normalizeFundCode fundCode) (pyStrip fundName) now).1
        else db).positions.map _).find? _ = _
      rw [hdb0pos]
      exact hself
    · intro pf u fid2 hne
      show ((if pyStrip fundName ≠ "" then
        (ensureFund db (normalizeFundCode fundCode) (pyStrip fundName) now).1
        else db).positions.map _).find? _ = _
      rw [hdb0pos]
      exact hframe pf u fid2 hne

/-- C10 witness: selling 40 of 100 shares updates only that row (shares
60, new timestamp, cost and creation time preserved) and leaves the other
user's position row untouched. -/
theorem reduce_position_frame_witness :
    ∃ db2, reducePosition c10Db "qq" "u1" "007721" 40 70 =
        .ok (db2, ⟨"qq", "u1", 7, 1, 100, 40, 60, false⟩) ∧
      findPosition db2.positions "qq" "u1" 7 =
        some ⟨"qq", "u1", 7, 1, 60, 0, 70⟩ ∧
      findPosition db2.positions "qq" "u2" 7 =
        findPosition c10Db.positions "qq" "u2" 7 := by
  obtain ⟨db2, h1, h2, h3⟩ := (reduce_position_frame c10Db "qq" "u1" "007721"
    "sell" 40 70 c4Pos none none none none "" "" "" (by decide) (by decide)
    (by decide) (by norm_num) (by decide) (by norm_num [c4Pos, eps])
    (by norm_num [c4Pos, eps])).1
  refine ⟨db2, ?_, ?_, h3 "qq" "u2" 7 (by simp [c4Pos]; decide)⟩
  · rw [h1]
    norm_num [c4Pos]
    exact ⟨by decide, by decide⟩
  · rw [show (7 : Nat) = c4Pos.fundId from rfl,
      show ("qq" : String) = normalizeKey "qq" "unknown" from by decide,
      show ("u1" : String) = normalizeKey "u1" "" from by decide, h2]
    norm_num [c4Pos]
    exact ⟨by decide, by decide⟩

/-! ## C7 — settlement NAV fallback order -/

/-- C7: over a store whose only NAV record for the fund lies strictly
after the expected settlement date, `_resolve_settlement_nav` for a
non-QDII fund answers from the earliest-on-or-after branch with a note
naming the actual date — not from the latest-record branch; for a QDII
fund whose record sits exactly one day after the expected date, the QDII
one-day-deferral branch answers with its own note; and with no stored NAV
at all the function reports the cost-estimation fallback. -/
theorem resolve_settlement_nav_fallback (f : Fund) (nf nl : Nat) (r : NavRow)
    (pos : List Position) (logs : List PosLog) (expected : Nat)
    (hc : normalizeFundCode f.fundCode = f.fundCode) (hc0 : f.fundCode ≠ "")
    (hr : r.fundId = f.id) (hlt : expected < r.navDate) :
    resolveSettlementNav (⟨[f], nf, [], [r], pos, logs, nl⟩ : DB)
        f.fundCode expected false =
      (some r, "按结算日后首个可用净值 " ++ toString r.navDate ++ " 计算") ∧
    (r.navDate = nextDay expected →
      resolveSettlementNav (⟨[f], nf, [], [r], pos, logs, nl⟩ : DB)
          f.fundCode expected true =
        (some r, "QDII 结算日顺延 1 天后匹配到净值")) ∧
    resolveSettlementNav (⟨[f], nf, [], [], pos, logs, nl⟩ : DB)
        f.fundCode expected false =
      (none, "未获取到历史净值，收益按成本价估算") := by
  have hd1 : decide (expected ≤ r.navDate) = true :=
    decide_eq_true (Nat.le_of_lt hlt)
  have hd2 : decide (r.navDate ≤ expected) = false :=
    decide_eq_false (Nat.not_le.mpr hlt)
  have hexact : getNavOnOrAfter (⟨[f], nf, [], [r], pos, logs, nl⟩ : DB)
      f.fundCode expected (some expected) = none := by
    unfold getNavOnOrAfter
    rw [hc, if_neg hc0]
    simp [fundIdForCode, findFundByCode, resolveNavTables, getPartition,
      minDateRow, hr, hd1, hd2, List.insertionSort]
  have hafter : getNavOnOrAfter (⟨[f], nf, [], [r], pos, logs, nl⟩ : DB)
      f.fundCode expected none = some r := by
    unfold getNavOnOrAfter
    rw [hc, if_neg hc0]
    simp [fundIdForCode, findFundByCode, resolveNavTables, getPartition,
      minDateRow, hr, hd1, List.insertionSort]
  have hempty : ∀ (startD : Nat) (endD : Option Nat),
      getNavOnOrAfter (⟨[f], nf, [], [], pos, logs, nl⟩ : DB)
        f.fundCode startD endD = none := by
    intro startD endD
    unfold getNavOnOrAfter
    rw [hc, if_neg hc0]
    cases endD <;>
      simp [fundIdForCode, findFundByCode, resolveNavTables, getPartition,
        minDateRow, List.insertionSort]
  have hlatestEmpty : getLatestNavRecord
      (⟨[f], nf, [], [], pos, logs, nl⟩ : DB) f.fundCode = none := by
    unfold getLatestNavRecord listFundNavHistory
    rw [hc, if_neg hc0]
    simp [fundIdForCode, findFundByCode, resolveNavTables, getPartition,
      queryNavTableDesc, dedupByDate, List.insertionSort]
  refine ⟨?_, ?_, ?_⟩
  · unfold resolveSettlementNav
    rw [hexact, hafter]
    simp [Nat.ne_of_gt hlt]
  · intro heq
    have hqdii : getNavOnOrAfter (⟨[f], nf, [], [r], pos, logs, nl⟩ : DB)
        f.fundCode (nextDay expected) (some (nextDay expected)) = some r := by
      unfold getNavOnOrAfter
      rw [hc, if_neg hc0]
      have hd3 : decide (nextDay expected ≤ r.navDate) = true :=
        decide_eq_true (by rw [heq])
      have hd4 : decide (r.navDate ≤ nextDay expected) = true :=
        decide_eq_true (by rw [heq])
      simp [fundIdForCode, findFundByCode, resolveNavTables, getPartition,
        minDateRow, hr, hd3, hd4, List.insertionSort]
    unfold resolveSettlementNav
    rw [hexact, hqdii]
    simp
  · unfold resolveSettlementNav
    simp [hempty, hlatestEmpty]

/-- C7 witness: the fund's only NAV (2024-01-13) lies three calendar days
after the expected settlement date 2024-01-10 for a non-QDII fund, and the
earliest-on-or-after branch supplies it with the actual-date note. -/
theorem resolve_settlement_nav_fallback_witness :
    resolveSettlementNav (⟨[c2Fund], 2, [], [c7Row], [], [], 1⟩ : DB)
        "000001" 20240110 false =
      (some c7Row, "按结算日后首个可用净值 " ++ toString c7Row.navDate ++ " 计算") ∧
    (c7Row.navDate = nextDay 20240110 →
      resolveSettlementNav (⟨[c2Fund], 2, [], [c7Row], [], [], 1⟩ : DB)
          "000001" 20240110 true =
        (some c7Row, "QDII 结算日顺延 1 天后匹配到净值")) ∧
    resolveSettlementNav (⟨[c2Fund], 2, [], [], [], [], 1⟩ : DB)
        "000001" 20240110 false =
      (none, "未获取到历史净值，收益按成本价估算") :=
  resolve_settlement_nav_fallback c2Fund 2 1 c7Row [] [] 20240110
    (by decide) (by decide) rfl (by decide)

/-! ## Partition-resolver lemmas for C3 -/

theorem getPartition_congr (a b : DB) (j : Nat) (h : a.partitions = b.partitions) :
    getPartition a j = getPartition b j := by
  unfold getPartition
  rw [h]

theorem setPartition_funds (db : DB) (k : Nat) (t : List NavRow) :
    (setPartition db k t).funds = db.funds := rfl

theorem setPartition_legacy (db : DB) (k : Nat) (t : List NavRow) :
    (setPartition db k t).legacy = db.legacy := rfl

theorem ensurePartition_funds (db : DB) (k : Nat) :
    (ensurePartition db k).funds = db.funds := by
  unfold ensurePartition
  split <;> rfl

theorem ensurePartition_legacy (db : DB) (k : Nat) :
    (ensurePartition db k).legacy = db.legacy := by
  unfold ensurePartition
  split <;> rfl

theorem hasPartition_ensure_self (db : DB) (k : Nat) :
    hasPartition (ensurePartition db k) k = true := by
  unfold ensurePartition hasPartition
  split
  · next h => exact h
  · simp [List.any_append]

theorem getPartition_ensure (db : DB) (k j : Nat) :
    getPartition (ensurePartition db k) j = getPartition db j := by
  by_cases h : hasPartition db k
  · simp [ensurePartition, h]
  · unfold getPartition ensurePartition
    rw [if_neg h]
    dsimp only
    rw [List.find?_append]
    cases hfind : db.partitions.find? (fun p => p.1 == j) with
    | some p => simp [hfind]
    | none =>
        by_cases hkj : (k == j) = true
        · simp [hfind, hkj]
        · simp [hfind, hkj]

theorem hasPartition_set (db : DB) (k : Nat) (t : List NavRow) (j : Nat) :
    hasPartition (setPartition db k t) j = hasPartition db j := by
  unfold hasPartition setPartition
  dsimp only
  refine any_map_pointwise _ _ (fun x => ?_) db.partitions
  cases hx : (x.1 == k) with
  | false => simp [hx]
  | true =>
      have hx' : x.1 = k := by simpa using hx
      simp [hx, hx']

theorem getPartition_set_self (db : DB) (k : Nat) (t : List NavRow)
    (h : hasPartition db k = true) :
    getPartition (setPartition db k t) k = t := by
  unfold getPartition setPartition
  rw [find?_map_pres (fun p : Nat × List NavRow => p.1 == k)
    (fun p => if p.1 == k then (k, t) else p)
    (fun x hx => by dsimp only; rw [if_pos hx]; simp)
    (fun x hx => by dsimp only; exact if_neg (by simp [hx]))
    db.partitions]
  obtain ⟨p0, hp0⟩ : ∃ p0, db.partitions.find?
      (fun p : Nat × List NavRow => p.1 == k) = some p0 := by
    rw [← Option.isSome_iff_exists, List.find?_isSome]
    unfold hasPartition at h
    simpa [List.any_eq_true] using h
  have hp0key : (p0.1 == k) = true :=
    List.find?_some (p := fun p : Nat × List NavRow => p.1 == k) hp0
  rw [hp0]
  show (if (p0.1 == k) = true then (k, t) else p0).2 = t
  rw [if_pos hp0key]

theorem getPartition_set_other (db : DB) (k : Nat) (t : List NavRow) (j : Nat)
    (hne : j ≠ k) :
    getPartition (setPartition db k t) j = getPartition db j := by
  unfold getPartition setPartition
  dsimp only
  rw [find?_map_frame (fun p : Nat × List NavRow => p.1 == j)
    (fun p => if p.1 == k then (k, t) else p)
    (fun x => ?_) (fun x hx => ?_) db.partitions]
  · cases hx : (x.1 == k) with
    | false => simp [hx]
    | true =>
        have hx' : x.1 = k := by simpa using hx
        have h1 : (k == j) = false := by simp [Ne.symm hne]
        simp [hx, hx', h1]
  · have hx' : x.1 = j := by simpa using hx
    have : (x.1 == k) = false := by simp [hx', hne]
    simp [this]

theorem countNavKey_append (t1 t2 : List NavRow) (fid d : Nat) :
    countNavKey (t1 ++ t2) fid d = countNavKey t1 fid d + countNavKey t2 fid d := by
  simp [countNavKey, List.filter_append]

theorem countNavKey_eq_zero_iff (t : List NavRow) (fid d : Nat) :
    countNavKey t fid d = 0 ↔ t.any (navKeyMatch fid d) = false := by
  simp [countNavKey, List.length_eq_zero, List.filter_eq_nil, List.any_eq_false]

theorem upsertRowInTable_insert (t : List NavRow) (fid : Nat) (inp : NavInput)
    (src : String) (now : Nat)
    (habs : t.any (navKeyMatch fid inp.navDate) = false) :
    upsertRowInTable t fid inp src now =
      t ++ [⟨fid, inp.navDate, inp.unitNav, inp.accumNav, inp.changeRate,
        src, now, now⟩] := by
  unfold upsertRowInTable
  rw [if_neg (by simp [habs])]

theorem upsertRowInTable_update (t : List NavRow) (fid : Nat) (inp : NavInput)
    (src : String) (now : Nat)
    (hhit : t.any (navKeyMatch fid inp.navDate) = true) :
    upsertRowInTable t fid inp src now =
      t.map (fun r => if navKeyMatch fid inp.navDate r then
        { r with
          unitNav := inp.unitNav,
          accumNav := inp.accumNav,
          changeRate := inp.changeRate,
          source := if src ≠ "" then src else r.source,
          updatedAt := now }
        else r) := by
  unfold upsertRowInTable
  rw [if_pos hhit]

/-! ## C3 — idempotent, source-preserving NAV upsert -/

/-- C3: starting from a store in which the (fund, nav_date) key is absent,
upserting a NAV record and then re-upserting the same key leaves exactly
one stored row in the key's partition, touches no other partition and not
the legacy table, and the surviving row carries the second upsert's
`unit_nav`, `accum_nav`, `change_rate` and `updated_at` (with `created_at`
from the first insert), while `source` keeps the first upsert's value when
the second one's is empty and is overwritten otherwise. -/
theorem upsert_fund_nav_history_idempotent (db : DB) (c : String) (f0 : Fund)
    (inp1 inp2 : NavInput) (name src1 src2 : String) (now1 now2 : Nat)
    (hc : normalizeFundCode c = c) (hc0 : c ≠ "")
    (hf : findFundByCode db.funds c = some f0)
    (hd : inp2.navDate = inp1.navDate)
    (h1 : 0 < inp1.unitNav) (h2 : 0 < inp2.unitNav)
    (habs : countNavKey (getPartition db (monthKeyOfDate inp1.navDate))
      f0.id inp1.navDate = 0) :
    ∃ S1 S2 : DB,
      upsertFundNavHistory db c [inp1] name src1 now1 = .ok (S1, 1) ∧
      upsertFundNavHistory S1 c [inp2] name src2 now2 = .ok (S2, 1) ∧
      countNavKey (getPartition S2 (monthKeyOfDate inp1.navDate))
        f0.id inp1.navDate = 1 ∧
      (∀ j, j ≠ monthKeyOfDate inp1.navDate →
        getPartition S2 j = getPartition db j) ∧
      S2.legacy = db.legacy ∧
      findNavRow (getPartition S2 (monthKeyOfDate inp1.navDate))
          f0.id inp1.navDate =
        some ⟨f0.id, inp1.navDate, inp2.unitNav, inp2.accumNav,
          inp2.changeRate,
          (if pyStrip src2 ≠ "" then pyStrip src2 else pyStrip src1),
          now1, now2⟩ := by
  have hfid1 : (ensureFund db c (pyStrip name) now1).2 = f0.id :=
    ensureFund_id_of_found db c (pyStrip name) now1 f0 hf
  have hgetE1 : ∀ j, getPartition (ensureFund db c (pyStrip name) now1).1 j =
      getPartition db j :=
    fun j => getPartition_congr _ _ j (ensureFund_partitions db c (pyStrip name) now1)
  have hget1 : getPartition
      (ensurePartition (ensureFund db c (pyStrip name) now1).1
        (monthKeyOfDate inp1.navDate)) (monthKeyOfDate inp1.navDate) =
      getPartition db (monthKeyOfDate inp1.navDate) :=
    (getPartition_ensure _ _ _).trans (hgetE1 _)
  have habs2 : (getPartition db (monthKeyOfDate inp1.navDate)).any
      (navKeyMatch f0.id inp1.navDate) = false :=
    (countNavKey_eq_zero_iff _ _ _).mp habs
  have hT1 : upsertRowInTable (getPartition db (monthKeyOfDate inp1.navDate))
      f0.id inp1 (pyStrip src1) now1 =
      getPartition db (monthKeyOfDate inp1.navDate) ++
        [(⟨f0.id, inp1.navDate, inp1.unitNav, inp1.accumNav, inp1.changeRate,
          pyStrip src1, now1, now1⟩ : NavRow)] :=
    upsertRowInTable_insert _ _ _ _ _ habs2
  have hS1 : upsertFundNavHistory db c [inp1] name src1 now1 =
      .ok (setPartition
        (ensurePartition (ensureFund db c (pyStrip name) now1).1
          (monthKeyOfDate inp1.navDate)) (monthKeyOfDate inp1.navDate)
        (getPartition db (monthKeyOfDate inp1.navDate) ++
          [(⟨f0.id, inp1.navDate, inp1.unitNav, inp1.accumNav, inp1.changeRate,
            pyStrip src1, now1, now1⟩ : NavRow)]), 1) := by
    unfold upsertFundNavHistory
    rw [hc, if_neg hc0, if_neg (by simp : ¬([inp1] = [])),
      if_neg (by simp [not_le.mpr h1])]
    dsimp only [groupByMonth, List.foldl, insertGroup]
    rw [hfid1, hget1, hT1]
    rfl
  set S1expr : DB := setPartition
    (ensurePartition (ensureFund db c (pyStrip name) now1).1
      (monthKeyOfDate inp1.navDate)) (monthKeyOfDate inp1.navDate)
    (getPartition db (monthKeyOfDate inp1.navDate) ++
      [(⟨f0.id, inp1.navDate, inp1.unitNav, inp1.accumNav, inp1.changeRate,
        pyStrip src1, now1, now1⟩ : NavRow)]) with hS1def
  have hfund1 : findFundByCode S1expr.funds c =
      some { f0 with
             fundName := if pyStrip name ≠ "" then pyStrip name else f0.fundName,
             updatedAt := now1 } := by
    rw [hS1def, setPartition_funds, ensurePartition_funds]
    exact ensureFund_find_of_found db c (pyStrip name) now1 f0 hf
  have hfid2 : (ensureFund S1expr c (pyStrip name) now2).2 = f0.id := by
    have h := ensureFund_id_of_found S1expr c (pyStrip name) now2 _ hfund1
    exact h
  have hgetE2 : ∀ j, getPartition (ensureFund S1expr c (pyStrip name) now2).1 j =
      getPartition S1expr j :=
    fun j => getPartition_congr _ _ j
      (ensureFund_partitions S1expr c (pyStrip name) now2)
  have hgetS1k : getPartition S1expr (monthKeyOfDate inp1.navDate) =
      getPartition db (monthKeyOfDate inp1.navDate) ++
        [(⟨f0.id, inp1.navDate, inp1.unitNav, inp1.accumNav, inp1.changeRate,
          pyStrip src1, now1, now1⟩ : NavRow)] := by
    rw [hS1def]
    exact getPartition_set_self _ _ _ (hasPartition_ensure_self _ _)
  have hget2 : getPartition
      (ensurePartition (ensureFund S1expr c (pyStrip name) now2).1
        (monthKeyOfDate inp1.navDate)) (monthKeyOfDate inp1.navDate) =
      getPartition db (monthKeyOfDate inp1.navDate) ++
        [(⟨f0.id, inp1.navDate, inp1.unitNav, inp1.accumNav, inp1.changeRate,
          pyStrip src1, now1, now1⟩ : NavRow)] :=
    (getPartition_ensure _ _ _).trans ((hgetE2 _).trans hgetS1k)
  have hany1 : (getPartition db (monthKeyOfDate inp1.navDate) ++
      [(⟨f0.id, inp1.navDate, inp1.unitNav, inp1.accumNav, inp1.changeRate,
        pyStrip src1, now1, now1⟩ : NavRow)]).any
      (navKeyMatch f0.id inp1.navDate) = true := by
    simp [List.any_append, navKeyMatch]
  have hT2 : upsertRowInTable
      (getPartition db (monthKeyOfDate inp1.navDate) ++
        [(⟨f0.id, inp1.navDate, inp1.unitNav, inp1.accumNav, inp1.changeRate,
          pyStrip src1, now1, now1⟩ : NavRow)]) f0.id inp2 (pyStrip src2) now2 =
      (getPartition db (monthKeyOfDate inp1.navDate) ++
        [(⟨f0.id, inp1.navDate, inp1.unitNav, inp1.accumNav, inp1.changeRate,
          pyStrip src1, now1, now1⟩ : NavRow)]).map
        (fun r => if navKeyMatch f0.id inp1.navDate r then
          { r with
            unitNav := inp2.unitNav,
            accumNav := inp2.accumNav,
            changeRate := inp2.changeRate,
            source := if pyStrip src2 ≠ "" then pyStrip src2 else r.source,
            updatedAt := now2 }
          else r) := by
    rw [upsertRowInTable_update _ _ _ _ _ (by rw [hd]; exact hany1), hd]
  have hS2 : upsertFundNavHistory S1expr c [inp2] name src2 now2 =
      .ok (setPartition
        (ensurePartition (ensureFund S1expr c (pyStrip name) now2).1
          (monthKeyOfDate inp1.navDate)) (monthKeyOfDate inp1.navDate)
        ((getPartition db (monthKeyOfDate inp1.navDate) ++
          [(⟨f0.id, inp1.navDate, inp1.unitNav, inp1.accumNav, inp1.changeRate,
            pyStrip src1, now1, now1⟩ : NavRow)]).map
          (fun r => if navKeyMatch f0.id inp1.navDate r then
            { r with
              unitNav := inp2.unitNav,
              accumNav := inp2.accumNav,
              changeRate := inp2.changeRate,
              source := if pyStrip src2 ≠ "" then pyStrip src2 else r.source,
              updatedAt := now2 }
            else r)), 1) := by
    unfold upsertFundNavHistory
    rw [hc, if_neg hc0, if_neg (by simp : ¬([inp2] = [])),
      if_neg (by simp [not_le.mpr h2])]
    dsimp only [groupByMonth, List.foldl, insertGroup]
    rw [hd, hfid2, hget2, hT2]
    rfl
  have hkeypres : ∀ x : NavRow, navKeyMatch f0.id inp1.navDate
      ((fun r => if navKeyMatch f0.id inp1.navDate r then
        { r with
          unitNav := inp2.unitNav,
          accumNav := inp2.accumNav,
          changeRate := inp2.changeRate,
          source := if pyStrip src2 ≠ "" then pyStrip src2 else r.source,
          updatedAt := now2 }
        else r) x) = navKeyMatch f0.id inp1.navDate x := by
    intro x
    dsimp only
    cases hx : navKeyMatch f0.id inp1.navDate x with
    | false => exact hx
    | true => exact hx
  refine ⟨S1expr, _, hS1, hS2, ?_, ?_, ?_, ?_⟩
  · rw [getPartition_set_self _ _ _ (hasPartition_ensure_self _ _)]
    have hcnt : countNavKey ((getPartition db (monthKeyOfDate inp1.navDate) ++
        [(⟨f0.id, inp1.navDate, inp1.unitNav, inp1.accumNav, inp1.changeRate,
          pyStrip src1, now1, now1⟩ : NavRow)]).map
        (fun r => if navKeyMatch f0.id inp1.navDate r then
          { r with
            unitNav := inp2.unitNav,
            accumNav := inp2.accumNav,
            changeRate := inp2.changeRate,
            source := if pyStrip src2 ≠ "" then pyStrip src2 else r.source,
            updatedAt := now2 }
          else r)) f0.id inp1.navDate =
        countNavKey (getPartition db (monthKeyOfDate inp1.navDate) ++
          [(⟨f0.id, inp1.navDate, inp1.unitNav, inp1.accumNav, inp1.changeRate,
            pyStrip src1, now1, now1⟩ : NavRow)]) f0.id inp1.navDate :=
      length_filter_map_pres _ _ hkeypres _
    rw [hcnt, countNavKey_append, habs]
    simp [countNavKey, navKeyMatch]
  · intro j hj
    rw [getPartition_set_other _ _ _ _ hj, getPartition_ensure, hgetE2,
      hS1def, getPartition_set_other _ _ _ _ hj, getPartition_ensure, hgetE1]
  · rw [setPartition_legacy, ensurePartition_legacy,
      ensureFund_legacy, hS1def, setPartition_legacy, ensurePartition_legacy,
      ensureFund_legacy]
  · rw [getPartition_set_self _ _ _ (hasPartition_ensure_self _ _)]
    unfold findNavRow
    rw [find?_map_pres (navKeyMatch f0.id inp1.navDate)
      (fun r => if navKeyMatch f0.id inp1.navDate r then
        { r with
          unitNav := inp2.unitNav,
          accumNav := inp2.accumNav,
          changeRate := inp2.changeRate,
          source := if pyStrip src2 ≠ "" then pyStrip src2 else r.source,
          updatedAt := now2 }
        else r)
      (fun x hx => by dsimp only; rw [if_pos hx]; exact hx)
      (fun x hx => by dsimp only; exact if_neg (by simp [hx]))
      _]
    rw [List.find?_append,
      show (getPartition db (monthKeyOfDate inp1.navDate)).find?
        (navKeyMatch f0.id inp1.navDate) = none from
        List.find?_eq_none.mpr (by
          intro x hx
          have := (List.any_eq_false.mp habs2) x hx
          simp [this]),
      List.find?_cons_of_pos _ (by simp [navKeyMatch])]
    rw [Option.none_or, Option.map_some']
    rw [show navKeyMatch f0.id inp1.navDate
        (⟨f0.id, inp1.navDate, inp1.unitNav, inp1.accumNav, inp1.changeRate,
          pyStrip src1, now1, now1⟩ : NavRow) = true from by simp [navKeyMatch]]
    rfl

/-- Witness: the idempotency theorem applied to a one-fund store, writing
2024-01-15 twice with different unit NAVs and an empty second source. -/
theorem upsert_fund_nav_history_idempotent_witness :
    findFundByCode c3Db.funds "000001" = some c3Fund ∧
    (∃ S1 S2 : DB,
      upsertFundNavHistory c3Db "000001" [c3Inp1] "F" "s1" 10 = .ok (S1, 1) ∧
      upsertFundNavHistory S1 "000001" [c3Inp2] "F" "" 20 = .ok (S2, 1) ∧
      countNavKey (getPartition S2 (monthKeyOfDate c3Inp1.navDate))
        c3Fund.id c3Inp1.navDate = 1 ∧
      (∀ j, j ≠ monthKeyOfDate c3Inp1.navDate →
        getPartition S2 j = getPartition c3Db j) ∧
      S2.legacy = c3Db.legacy ∧
      findNavRow (getPartition S2 (monthKeyOfDate c3Inp1.navDate))
          c3Fund.id c3Inp1.navDate =
        some ⟨c3Fund.id, c3Inp1.navDate, c3Inp2.unitNav, c3Inp2.accumNav,
          c3Inp2.changeRate,
          (if pyStrip "" ≠ "" then pyStrip "" else pyStrip "s1"),
          10, 20⟩) :=
  ⟨by decide,
    upsert_fund_nav_history_idempotent c3Db "000001" c3Fund c3Inp1 c3Inp2
      "F" "s1" "" 10 20 (by decide) (by decide) (by decide) (by decide)
      (by norm_num [c3Inp1]) (by norm_num [c3Inp2]) (by decide)⟩

end FundAnalyzer
